import Mathlib

/-!
Verification development for the `todo-list` repository (TodoApp class,
final revision of the source file).  The JavaScript class is shallowly
embedded: the mutable `this` object becomes the `AppState` structure and
every method that the claims mention becomes a pure state-transforming
function.  JavaScript numbers holding counters are modelled as `Int`
(they are incremented and decremented without bounds checks), calendar
dates produced by `toDateString()` are modelled as abstract day numbers
(`Nat`), and values read from the environment (DOM inputs, `Date.now()`,
`prompt`, `confirm`, parsed `localStorage` blobs) become explicit
parameters of the corresponding functions.
-/

namespace TodoApp

/-- A task record as built by `addTask`:
`{ id, text, completed, createdAt, dueDate, dueTime, location }`.
Optional fields store `null` as `none` (the source writes `value || null`). -/
structure Task where
  id : String
  text : String
  completed : Bool
  createdAt : Nat
  dueDate : Option String
  dueTime : Option String
  location : Option String
deriving DecidableEq

/-- One entry of `stats.contributionData`:
`{ date, tasks, pomodoros, totalActivity }`.  `date` abstracts the
`toDateString()` string as a day number. -/
structure DayEntry where
  date : Nat
  tasks : Int
  pomodoros : Int
  totalActivity : Int
deriving DecidableEq

/-- The `this.stats` object (the fields the claims touch). -/
structure Stats where
  tasksCompletedToday : Int
  totalFocusTime : Int
  streak : Int
  lastStatsDate : Nat
  contributionData : List DayEntry
deriving DecidableEq

/-- The mutable state of the `TodoApp` instance: the task list, the two
cached counters, the undo/redo history, the statistics object and the
pomodoro/focus-timer fields.  DOM caches, toast/celebration state and
the recent-location list are presentation-only and are not part of the
model. -/
structure AppState where
  tasks : List Task
  _activeCount : Int
  _completedCount : Int
  history : List (List Task)
  historyIndex : Int
  maxHistorySize : Int
  stats : Stats
  pomodoroCount : Int
  pomodorosToday : Int
  currentTask : Option Task
  isBreakTime : Bool
  timerDuration : Int
  timeRemaining : Int
  timerPaused : Bool
  focusModeActive : Bool
deriving DecidableEq

/-- The list of task ids, used to state id-uniqueness side conditions. -/
def taskIds (l : List Task) : List String :=
  l.map (fun t => t.id)

/-- `initContributionData()`: 84 zero entries whose dates end at the
current day (the loop pushes `date = today - i` for `i = 83 .. 0`). -/
def initContributionData (today : Nat) : List DayEntry :=
  (List.range 84).map (fun i => { date := today - (83 - i), tasks := 0, pomodoros := 0, totalActivity := 0 })

/-- The constructor's field initialisation (before `loadFromStorage`):
empty task list, zero counters, empty history with `historyIndex = -1`,
`maxHistorySize = 50`, fresh statistics, idle timer. -/
def initialState (today : Nat) : AppState :=
  { tasks := []
    _activeCount := 0
    _completedCount := 0
    history := []
    historyIndex := -1
    maxHistorySize := 50
    stats :=
      { tasksCompletedToday := 0
        totalFocusTime := 0
        streak := 0
        lastStatsDate := today
        contributionData := initContributionData today }
    pomodoroCount := 0
    pomodorosToday := 0
    currentTask := none
    isBreakTime := false
    timerDuration := 0
    timeRemaining := 0
    timerPaused := false
    focusModeActive := false }

/-- JavaScript `String.prototype.trim()`: strip leading and trailing
whitespace (structural recursion over the character list, so that
concrete traces evaluate). -/
def jsTrim (s : String) : String :=
  ⟨((s.data.dropWhile Char.isWhitespace).reverse.dropWhile Char.isWhitespace).reverse⟩

/-! ## Statistics functions -/

/-- Loop body of `updateStreak()`: walk the window from the most recent
entry backwards, counting entries with `totalActivity > 0` and stopping
at the first one that is not. -/
def streakScan : List DayEntry → Int
  | [] => 0
  | e :: rest => if e.totalActivity > 0 then streakScan rest + 1 else 0

/-- `updateStreak()` on the stats object: the source iterates
`contributionData` from the last index down, which is the scan of the
reversed list. -/
def updateStreakStats (st : Stats) : Stats :=
  { st with streak := streakScan st.contributionData.reverse }

/-- Helper for `incrementTasksCompleted()`: `find` locates the first
entry with today's date and, in place, increments its `tasks` counter
and recomputes `totalActivity = tasks + pomodoros`. -/
def bumpTasksEntry (today : Nat) : List DayEntry → List DayEntry
  | [] => []
  | e :: rest =>
    if e.date = today then
      { e with tasks := e.tasks + 1, totalActivity := (e.tasks + 1) + e.pomodoros } :: rest
    else
      e :: bumpTasksEntry today rest

/-- Helper for `decrementTasksCompleted()`: `find` locates the first
entry with today's date; only if its `tasks` counter is positive is it
decremented (and `totalActivity` recomputed). -/
def dropTasksEntry (today : Nat) : List DayEntry → List DayEntry
  | [] => []
  | e :: rest =>
    if e.date = today then
      if e.tasks > 0 then
        { e with tasks := e.tasks - 1, totalActivity := (e.tasks - 1) + e.pomodoros } :: rest
      else
        e :: rest
    else
      e :: dropTasksEntry today rest

/-- Helper for `incrementPomodoros()`: bump the `pomodoros` counter of
the first entry with today's date. -/
def bumpPomodorosEntry (today : Nat) : List DayEntry → List DayEntry
  | [] => []
  | e :: rest =>
    if e.date = today then
      { e with pomodoros := e.pomodoros + 1, totalActivity := e.tasks + (e.pomodoros + 1) } :: rest
    else
      e :: bumpPomodorosEntry today rest

/-- `incrementTasksCompleted()`: bump `tasksCompletedToday`, bump the
ledger entry for today (when present), then `updateStreak()`.
(`saveStats()` only writes to localStorage and has no model effect.) -/
def incrementTasksCompletedStats (today : Nat) (st : Stats) : Stats :=
  updateStreakStats
    { st with
      tasksCompletedToday := st.tasksCompletedToday + 1
      contributionData := bumpTasksEntry today st.contributionData }

/-- `decrementTasksCompleted()`: everything is guarded by
`tasksCompletedToday > 0`; inside, the ledger decrement is additionally
guarded by the found entry's `tasks > 0`.  No streak update. -/
def decrementTasksCompletedStats (today : Nat) (st : Stats) : Stats :=
  if st.tasksCompletedToday > 0 then
    { st with
      tasksCompletedToday := st.tasksCompletedToday - 1
      contributionData := dropTasksEntry today st.contributionData }
  else st

/-- `incrementPomodoros()`: bump today's ledger `pomodoros` counter
(no streak update in the source). -/
def incrementPomodorosStats (today : Nat) (st : Stats) : Stats :=
  { st with contributionData := bumpPomodorosEntry today st.contributionData }

/-- State-level wrapper for `incrementTasksCompleted()`. -/
def incrementTasksCompleted (today : Nat) (s : AppState) : AppState :=
  { s with stats := incrementTasksCompletedStats today s.stats }

/-- State-level wrapper for `decrementTasksCompleted()`. -/
def decrementTasksCompleted (today : Nat) (s : AppState) : AppState :=
  { s with stats := decrementTasksCompletedStats today s.stats }

/-- State-level wrapper for `incrementPomodoros()`. -/
def incrementPomodoros (today : Nat) (s : AppState) : AppState :=
  { s with stats := incrementPomodorosStats today s.stats }

/-- `addFocusTime(minutes)`: accumulate total focus minutes. -/
def addFocusTime (minutes : Int) (s : AppState) : AppState :=
  { s with stats := { s.stats with totalFocusTime := s.stats.totalFocusTime + minutes } }

/-- `updateContributionData()`: if the window's last entry is not dated
today, `shift()` the oldest entry and `push` a fresh zero entry for
today.  This happens once per call, not in a loop.  (On an empty window
the source would fault reading `lastDay.date`; the app only ever builds
84-entry windows, and the model returns the state unchanged there.) -/
def updateContributionData (today : Nat) (s : AppState) : AppState :=
  match s.stats.contributionData.getLast? with
  | none => s
  | some lastDay =>
    if lastDay.date ≠ today then
      { s with stats :=
        { s.stats with contributionData :=
            s.stats.contributionData.drop 1 ++ [{ date := today, tasks := 0, pomodoros := 0, totalActivity := 0 }] } }
    else s

/-- `checkDailyReset()`: on a date change, reset `tasksCompletedToday`,
stamp `lastStatsDate`, and roll the contribution window. -/
def checkDailyReset (today : Nat) (s : AppState) : AppState :=
  if s.stats.lastStatsDate ≠ today then
    updateContributionData today
      { s with stats := { s.stats with tasksCompletedToday := 0, lastStatsDate := today } }
  else s

/-! ## Undo/redo history -/

/-- Loop of `recalculateCounters()`: one pass over the task array,
incrementing the completed counter for completed tasks and the active
counter otherwise, starting from `(0, 0)`. -/
def counterLoop (l : List Task) : Int × Int :=
  l.foldl (fun ac t => if t.completed then (ac.1, ac.2 + 1) else (ac.1 + 1, ac.2)) (0, 0)

/-- `recalculateCounters()`: reset both cached counters from a full scan
of the live task list (used after undo/redo and load). -/
def recalculateCounters (s : AppState) : AppState :=
  { s with _activeCount := (counterLoop s.tasks).1, _completedCount := (counterLoop s.tasks).2 }

/-- `saveState()`: deep-copy the current task list (value semantics in
the model), drop the abandoned redo branch when the cursor is not at the
tail (`slice(0, historyIndex + 1)`), push the snapshot, then either
evict the oldest entry (when over `maxHistorySize`) or advance the
cursor. -/
def saveState (s : AppState) : AppState :=
  let kept :=
    if s.historyIndex < (s.history.length : Int) - 1 then
      s.history.take (s.historyIndex + 1).toNat
    else
      s.history
  let pushed := kept ++ [s.tasks]
  if (pushed.length : Int) > s.maxHistorySize then
    { s with history := pushed.drop 1 }
  else
    { s with history := pushed, historyIndex := s.historyIndex + 1 }

/-- `undo()`: guarded by `historyIndex <= 0`; otherwise decrement the
cursor, restore that snapshot, and recalculate the counters. -/
def undo (s : AppState) : AppState :=
  if s.historyIndex ≤ 0 then s
  else
    recalculateCounters
      { s with
        historyIndex := s.historyIndex - 1
        tasks := s.history.getD (s.historyIndex - 1).toNat [] }

/-- `redo()`: guarded by `historyIndex >= history.length - 1`; otherwise
increment the cursor, restore that snapshot, and recalculate. -/
def redo (s : AppState) : AppState :=
  if s.historyIndex ≥ (s.history.length : Int) - 1 then s
  else
    recalculateCounters
      { s with
        historyIndex := s.historyIndex + 1
        tasks := s.history.getD (s.historyIndex + 1).toNat [] }

/-! ## Task operations

The DOM input values, the fresh `Date.now()` id/timestamp and the real
date are passed as parameters.  Empty-string inputs model the source's
`value || null` pattern. -/

/-- Turn an input-field string into the stored optional field
(`value || null`). -/
def optField (v : String) : Option String :=
  if v = "" then none else some v

/-- `addTask()`: return unchanged on empty trimmed text; otherwise
snapshot the pre-mutation list, `unshift` the new task and bump the
active counter.  `id` and `createdAt` model `Date.now()`. -/
def addTask (s : AppState) (text id : String) (createdAt : Nat)
    (dueDate dueTime location : String) : AppState :=
  let trimmed := jsTrim text
  if trimmed = "" then s
  else
    let s := saveState s
    let task : Task :=
      { id := id
        text := trimmed
        completed := false
        createdAt := createdAt
        dueDate := optField dueDate
        dueTime := optField dueTime
        location := optField (jsTrim location) }
    { s with tasks := task :: s.tasks, _activeCount := s._activeCount + 1 }

/-- `deleteTask(id)`: snapshot first, decrement the counter matching the
found task's completion state (if any), then filter out every task with
that id. -/
def deleteTask (s : AppState) (id : String) : AppState :=
  let s := saveState s
  let s :=
    match s.tasks.find? (fun t => t.id = id) with
    | some task =>
      if task.completed then { s with _completedCount := s._completedCount - 1 }
      else { s with _activeCount := s._activeCount - 1 }
    | none => s
  { s with tasks := s.tasks.filter (fun t => ¬ t.id = id) }

/-- In-place flip of the first task with the given id (the object
returned by `find` is mutated in the source). -/
def toggleFirst (id : String) : List Task → List Task
  | [] => []
  | t :: rest =>
    if t.id = id then { t with completed := ! t.completed } :: rest
    else t :: toggleFirst id rest

/-- `toggleTask(id)`: snapshot, flip the found task, move one unit
between the cached counters, and forward the completion event to the
statistics (increment on false→true, decrement on true→false). -/
def toggleTask (s : AppState) (id : String) (today : Nat) : AppState :=
  let s := saveState s
  match s.tasks.find? (fun t => t.id = id) with
  | none => s
  | some task =>
    let s := { s with tasks := toggleFirst id s.tasks }
    if ! task.completed then
      incrementTasksCompleted today
        { s with _activeCount := s._activeCount - 1, _completedCount := s._completedCount + 1 }
    else
      decrementTasksCompleted today
        { s with _activeCount := s._activeCount + 1, _completedCount := s._completedCount - 1 }

/-- In-place field update of the first task with the given id, as done
by `saveEdit` on the object returned by `find`. -/
def editFirst (id trimmedText dueDate dueTime location : String) : List Task → List Task
  | [] => []
  | t :: rest =>
    if t.id = id then
      { t with
        text := trimmedText
        dueDate := optField dueDate
        dueTime := optField dueTime
        location := optField (jsTrim location) } :: rest
    else t :: editFirst id trimmedText dueDate dueTime location rest

/-- `saveEdit(id, newText, newDueDate, newDueTime, newLocation)`: empty
trimmed text degrades to `deleteTask(id)`; otherwise snapshot and update
the found task's fields in place (completion state untouched). -/
def saveEdit (s : AppState) (id newText newDueDate newDueTime newLocation : String) : AppState :=
  let trimmedText := jsTrim newText
  if trimmedText = "" then deleteTask s id
  else
    let s := saveState s
    { s with tasks := editFirst id trimmedText newDueDate newDueTime newLocation s.tasks }

/-- `toggleAllTasks()`: snapshot, decide `allCompleted` from the cached
counter, flip every task in the corresponding direction routing each
flip through the statistics increment/decrement, and set both counters
in one step.  The statistics updates never read the task list, so the
source's interleaved `forEach` is a fold over the pre-flip list. -/
def toggleAllTasks (s : AppState) (today : Nat) : AppState :=
  let s := saveState s
  if s._completedCount = (s.tasks.length : Int) then
    { s with
      tasks := s.tasks.map (fun t => { t with completed := false })
      stats := s.tasks.foldl
        (fun st t => if t.completed then decrementTasksCompletedStats today st else st) s.stats
      _activeCount := (s.tasks.length : Int)
      _completedCount := 0 }
  else
    { s with
      tasks := s.tasks.map (fun t => { t with completed := true })
      stats := s.tasks.foldl
        (fun st t => if ! t.completed then incrementTasksCompletedStats today st else st) s.stats
      _activeCount := 0
      _completedCount := (s.tasks.length : Int) }

/-- `clearCompletedTasks()`: snapshot, drop every completed task, zero
the completed counter, leave the active counter as is. -/
def clearCompletedTasks (s : AppState) : AppState :=
  let s := saveState s
  { s with
    tasks := s.tasks.filter (fun t => ! t.completed)
    _completedCount := 0 }

/-- `handleDrop(e)` reordering: compute both indices on the live list,
`splice` the dragged task out and `splice` it back in at the target
index.  The drag-and-drop DOM guard guarantees both ids belong to
rendered tasks, which the reachability relation records as a side
condition; the fallback branch (absent dragged id) is never exercised. -/
def handleDrop (s : AppState) (draggedId targetId : String) : AppState :=
  let s := saveState s
  let draggedIndex := s.tasks.findIdx (fun t => t.id = draggedId)
  let targetIndex := s.tasks.findIdx (fun t => t.id = targetId)
  match s.tasks[draggedIndex]? with
  | none => s
  | some removed =>
    { s with tasks := (s.tasks.eraseIdx draggedIndex).insertIdx targetIndex removed }

/-- The parse outcome of the `tasks` key of localStorage. -/
inductive LoadResult where
  | absent : LoadResult
  | corrupt : LoadResult
  | ok : List Task → LoadResult

/-- `loadFromStorage()`, restricted to the task key and the daily-reset
check: a present, well-formed blob replaces the list and the counters
are recalculated; a corrupt blob resets the list and counters; an
absent key leaves them alone.  Afterwards `checkDailyReset()` runs.
(The recent-location and stats keys only populate presentation state
and the statistics blob, which no claim reads across a load.) -/
def loadFromStorage (s : AppState) (r : LoadResult) (today : Nat) : AppState :=
  let s :=
    match r with
    | .absent => s
    | .corrupt => { s with tasks := [], _activeCount := 0, _completedCount := 0 }
    | .ok l => recalculateCounters { s with tasks := l }
  checkDailyReset today s

/-! ## Focus timer

`prompt` returns `null` or a string; the guard
`!minutes || isNaN(minutes) || minutes <= 0` coerces the string to a
number.  The coercion is modelled for the decimal forms
`[sign] digits [\x2e digits]` a duration prompt can sensibly produce: the
result is a scaled pair `(mantissa, fractionDigits)` standing for
`mantissa / 10 ^ fractionDigits`, and `none` stands for `NaN`.
Exotic coercions (exponents, hex, `Infinity`, inner whitespace) are
outside the model. -/

/-- Value of a digit run. -/
def digitsVal (cs : List Char) : Nat :=
  cs.foldl (fun a c => 10 * a + (c.toNat - '0'.toNat)) 0

/-- Digits and sign of a character list after the optional sign. -/
def splitSign : List Char → Int × List Char
  | '-' :: rest => (-1, rest)
  | '+' :: rest => (1, rest)
  | cs => (1, cs)

/-- JavaScript `Number(string)` on decimal forms; `Number("") = 0`. -/
def jsNumber (m : String) : Option (Int × Nat) :=
  match m.data with
  | [] => some (0, 0)
  | cs =>
    let sd := splitSign cs
    let intPart := sd.2.span (fun c => c.isDigit)
    match intPart.2 with
    | [] =>
      if intPart.1.isEmpty then none
      else some (sd.1 * (digitsVal intPart.1 : Int), 0)
    | '.' :: afterDot =>
      let fracPart := afterDot.span (fun c => c.isDigit)
      if fracPart.2.isEmpty && !(intPart.1.isEmpty && fracPart.1.isEmpty) then
        some (sd.1 * (digitsVal (intPart.1 ++ fracPart.1) : Int), fracPart.1.length)
      else none
    | _ => none

/-- The comparison `minutes <= 0` after string-to-number coercion
(`false` when the coercion yields `NaN`, as all `NaN` comparisons are
false). -/
def jsLeZero (m : String) : Bool :=
  match jsNumber m with
  | some sv => decide (sv.1 ≤ 0)
  | none => false

/-- `parseInt(string)`: optional sign followed by the leading digit run;
the model returns `0` in place of `NaN` (a digit-less string never
reaches the call sites under the duration guard for integer input). -/
def jsParseInt (m : String) : Int :=
  let sd := splitSign m.data
  let digits := sd.2.span (fun c => c.isDigit)
  if digits.1.isEmpty then 0 else sd.1 * (digitsVal digits.1 : Int)

/-- `startFocusMode(taskId)`: return unchanged when the task id is
unknown, when the prompt was cancelled (`null`), or when the entered
duration is empty, non-numeric or non-positive; otherwise arm a work
timer of `parseInt(minutes) * 60` seconds. -/
def startFocusMode (s : AppState) (taskId : String) (minutes : Option String) : AppState :=
  match s.tasks.find? (fun t => t.id = taskId) with
  | none => s
  | some task =>
    match minutes with
    | none => s
    | some m =>
      if m = "" || (jsNumber m).isNone || jsLeZero m then s
      else
        { s with
          currentTask := some task
          timerDuration := jsParseInt m * 60
          timeRemaining := jsParseInt m * 60
          timerPaused := false
          focusModeActive := true }

/-- `cleanupFocusMode()`: disarm the timers and reset every focus
field. -/
def cleanupFocusMode (s : AppState) : AppState :=
  { s with
    focusModeActive := false
    timerPaused := false
    timeRemaining := 0
    timerDuration := 0
    currentTask := none
    isBreakTime := false }

/-- `startBreak(minutes)`: arm a break timer. -/
def startBreak (minutes : Int) (s : AppState) : AppState :=
  { s with
    isBreakTime := true
    timerDuration := minutes * 60
    timeRemaining := minutes * 60
    timerPaused := false
    focusModeActive := true }

/-- `Math.round(n / 60)` on an integer number of seconds: floor of
`n / 60 + 1 / 2`. -/
def roundMinutes (n : Int) : Int :=
  Int.fdiv (2 * n + 60) 120

/-- `timerComplete()`: on a work session, count the pomodoro, record it
in the ledger, accumulate the session's minutes, compute the offered
break length (15 minutes on every 4th pomodoro, else 5), clean up, and
start the break if the user accepts the `confirm` dialog (`takeBreak`);
on a break, just clean up. -/
def timerComplete (takeBreak : Bool) (today : Nat) (s : AppState) : AppState :=
  if ! s.isBreakTime then
    let s := { s with pomodoroCount := s.pomodoroCount + 1, pomodorosToday := s.pomodorosToday + 1 }
    let s := incrementPomodoros today s
    let s := addFocusTime (roundMinutes s.timerDuration) s
    let breakDuration : Int := if s.pomodoroCount % 4 = 0 then 15 else 5
    let s := cleanupFocusMode s
    if takeBreak then startBreak breakDuration s else s
  else
    cleanupFocusMode s

/-- One firing of the `startCountdown()` interval callback: while not
paused, decrement the remaining time and fire `timerComplete` when it
reaches zero.  The callback only runs while the interval is armed, i.e.
between a start and the matching cleanup. -/
def tick (takeBreak : Bool) (today : Nat) (s : AppState) : AppState :=
  if s.timerPaused then s
  else
    let s := { s with timeRemaining := s.timeRemaining - 1 }
    if s.timeRemaining ≤ 0 then timerComplete takeBreak today s else s

/-! ## Reachable states

One constructor per TaskStore operation named in the claims.  Side
conditions record what the browser environment guarantees: `Date.now()`
ids of successive `addTask` calls are fresh (the id is minted at
creation and the stored list never contains it already), drag-and-drop
ids come from rendered task elements, and a well-formed storage blob is
a list the app itself wrote (so its ids are distinct). -/

inductive Reachable : AppState → Prop
  | init (today : Nat) : Reachable (initialState today)
  | add (s : AppState) (text id : String) (createdAt : Nat) (dueDate dueTime location : String) :
      Reachable s → id ∉ taskIds s.tasks →
      Reachable (addTask s text id createdAt dueDate dueTime location)
  | delete (s : AppState) (id : String) :
      Reachable s → Reachable (deleteTask s id)
  | toggle (s : AppState) (id : String) (today : Nat) :
      Reachable s → Reachable (toggleTask s id today)
  | edit (s : AppState) (id newText newDueDate newDueTime newLocation : String) :
      Reachable s → Reachable (saveEdit s id newText newDueDate newDueTime newLocation)
  | toggleAll (s : AppState) (today : Nat) :
      Reachable s → Reachable (toggleAllTasks s today)
  | clearCompleted (s : AppState) :
      Reachable s → Reachable (clearCompletedTasks s)
  | drop (s : AppState) (draggedId targetId : String) :
      Reachable s → draggedId ∈ taskIds s.tasks → targetId ∈ taskIds s.tasks →
      Reachable (handleDrop s draggedId targetId)
  | undoStep (s : AppState) :
      Reachable s → Reachable (undo s)
  | redoStep (s : AppState) :
      Reachable s → Reachable (redo s)
  | load (s : AppState) (r : LoadResult) (today : Nat) :
      Reachable s → (∀ l, r = LoadResult.ok l → (taskIds l).Nodup) →
      Reachable (loadFromStorage s r today)

/-! ## List-level helper lemmas -/

lemma filter_id_eq_self (l : List Task) (id : String) (h : id ∉ taskIds l) :
    l.filter (fun t => ¬ t.id = id) = l := by
  induction l with
  | nil => rfl
  | cons a l ih =>
    simp only [taskIds, List.map_cons, List.mem_cons, not_or] at h
    simp only [List.filter_cons]
    rw [if_pos, ih]
    · exact fun hl => h.2 (by simpa [taskIds] using hl)
    · simpa using fun he => h.1 he.symm

lemma find?_eq_none_of_not_mem (l : List Task) (id : String) (h : id ∉ taskIds l) :
    l.find? (fun t => t.id = id) = none := by
  rw [List.find?_eq_none]
  intro t ht
  simp only [decide_eq_true_eq]
  intro he
  exact h (by simpa [taskIds, he] using List.mem_map_of_mem (fun t => t.id) ht)

lemma delete_len_countP (l : List Task) (id : String) (t : Task)
    (hnd : (taskIds l).Nodup) (hf : l.find? (fun x => x.id = id) = some t) :
    (l.filter (fun x => ¬ x.id = id)).length + 1 = l.length ∧
    (l.filter (fun x => ¬ x.id = id)).countP (fun x => x.completed) +
      (if t.completed then 1 else 0) = l.countP (fun x => x.completed) := by
  induction l with
  | nil => simp at hf
  | cons a l ih =>
    simp only [taskIds, List.map_cons, List.nodup_cons] at hnd
    by_cases ha : a.id = id
    · rw [List.find?_cons_of_pos _ (by simpa using ha)] at hf
      injection hf with hf
      subst hf
      have hrest : l.filter (fun x => ¬ x.id = id) = l := by
        refine filter_id_eq_self l id (fun hm => hnd.1 ?_)
        rw [ha]
        simpa [taskIds] using hm
      have hhead : (a :: l).filter (fun x => ¬ x.id = id) = l := by
        rw [List.filter_cons, if_neg (by simpa using ha), hrest]
      rw [hhead, List.countP_cons]
      exact ⟨by simp, by cases hc : a.completed <;> simp [hc]⟩
    · rw [List.find?_cons_of_neg _ (by simpa using ha)] at hf
      obtain ⟨ih1, ih2⟩ := ih hnd.2 hf
      have hhead : (a :: l).filter (fun x => ¬ x.id = id) =
          a :: l.filter (fun x => ¬ x.id = id) := by
        rw [List.filter_cons, if_pos (by simpa using ha)]
      rw [hhead, List.countP_cons, List.countP_cons, List.length_cons, List.length_cons]
      constructor
      · omega
      · omega

lemma toggleFirst_ids (l : List Task) (id : String) :
    taskIds (toggleFirst id l) = taskIds l := by
  induction l with
  | nil => rfl
  | cons a l ih =>
    by_cases ha : a.id = id
    · simp [toggleFirst, ha, taskIds]
    · simp [toggleFirst, ha, taskIds] at ih ⊢
      exact ih

lemma toggleFirst_len (l : List Task) (id : String) :
    (toggleFirst id l).length = l.length := by
  induction l with
  | nil => rfl
  | cons a l ih =>
    by_cases ha : a.id = id
    · simp [toggleFirst, ha]
    · simp [toggleFirst, ha]
      exact ih

lemma toggleFirst_countP (l : List Task) (id : String) (t : Task)
    (hf : l.find? (fun x => x.id = id) = some t) :
    (toggleFirst id l).countP (fun x => x.completed) + (if t.completed then 1 else 0) =
      l.countP (fun x => x.completed) + (if t.completed then 0 else 1) := by
  induction l with
  | nil => simp at hf
  | cons a l ih =>
    by_cases ha : a.id = id
    · rw [List.find?_cons_of_pos _ (by simpa using ha)] at hf
      injection hf with hf
      subst hf
      simp only [toggleFirst, if_pos ha, List.countP_cons]
      cases hc : a.completed <;> simp [hc]
    · rw [List.find?_cons_of_neg _ (by simpa using ha)] at hf
      have := ih hf
      simp only [toggleFirst, if_neg ha, List.countP_cons]
      omega

lemma toggleFirst_find? (l : List Task) (id : String) (t : Task)
    (hf : l.find? (fun x => x.id = id) = some t) :
    (toggleFirst id l).find? (fun x => x.id = id) =
      some { t with completed := ! t.completed } := by
  induction l with
  | nil => simp at hf
  | cons a l ih =>
    by_cases ha : a.id = id
    · rw [List.find?_cons_of_pos _ (by simpa using ha)] at hf
      injection hf with hf
      subst hf
      simp [toggleFirst, ha, List.find?_cons_of_pos]
    · rw [List.find?_cons_of_neg _ (by simpa using ha)] at hf
      simpa [toggleFirst, ha, List.find?_cons_of_neg, ha] using ih hf

lemma editFirst_ids (l : List Task) (id a b c d : String) :
    taskIds (editFirst id a b c d l) = taskIds l := by
  induction l with
  | nil => rfl
  | cons x l ih =>
    by_cases hx : x.id = id
    · simp [editFirst, hx, taskIds]
    · simp [editFirst, hx, taskIds] at ih ⊢
      exact ih

lemma editFirst_len (l : List Task) (id a b c d : String) :
    (editFirst id a b c d l).length = l.length := by
  induction l with
  | nil => rfl
  | cons x l ih =>
    by_cases hx : x.id = id
    · simp [editFirst, hx]
    · simp [editFirst, hx]
      exact ih

lemma editFirst_countP (l : List Task) (id a b c d : String) :
    (editFirst id a b c d l).countP (fun x => x.completed) =
      l.countP (fun x => x.completed) := by
  induction l with
  | nil => rfl
  | cons x l ih =>
    by_cases hx : x.id = id
    · simp [editFirst, hx, List.countP_cons]
    · simp [editFirst, hx, List.countP_cons]
      omega

lemma perm_cons_eraseIdx (l : List Task) (i : Nat) (a : Task) (h : l[i]? = some a) :
    l.Perm (a :: l.eraseIdx i) := by
  induction l generalizing i with
  | nil => simp at h
  | cons x l ih =>
    cases i with
    | zero =>
      simp only [List.getElem?_cons_zero, Option.some.injEq] at h
      subst h
      simp [List.eraseIdx]
    | succ n =>
      simp only [List.getElem?_cons_succ] at h
      have h1 : (x :: l).Perm (x :: a :: l.eraseIdx n) := (ih n h).cons x
      have h2 : (x :: a :: l.eraseIdx n).Perm (a :: x :: l.eraseIdx n) :=
        List.Perm.swap a x (l.eraseIdx n)
      have h3 : a :: x :: l.eraseIdx n = a :: (x :: l).eraseIdx (n + 1) := rfl
      exact h3 ▸ h1.trans h2

lemma counterLoop_eq (l : List Task) :
    counterLoop l =
      ((l.countP (fun t => ! t.completed) : Int), (l.countP (fun t => t.completed) : Int)) := by
  have key : ∀ (l : List Task) (a c : Int),
      l.foldl (fun ac t => if t.completed then (ac.1, ac.2 + 1) else (ac.1 + 1, ac.2)) (a, c) =
        (a + (l.countP (fun t => ! t.completed) : Int), c + (l.countP (fun t => t.completed) : Int)) := by
    intro l
    induction l with
    | nil => intro a c; simp
    | cons x l ih =>
      intro a c
      cases hx : x.completed
      · simp only [List.foldl_cons, hx]
        rw [if_neg Bool.false_ne_true, ih]
        simp [List.countP_cons, hx]
        ring
      · simp only [List.foldl_cons, hx]
        rw [if_pos trivial, ih]
        simp [List.countP_cons, hx]
        ring
  simpa using key l 0 0

/-! ## Ledger sums

The per-day ledger counters are observed through the sum over all
entries carrying the given date (for well-formed windows there is at
most one, and the in-place `find`-and-mutate updates move these sums by
exactly one). -/

/-- Total of the `tasks` counters of the entries dated `today`. -/
def tasksSum (today : Nat) (l : List DayEntry) : Int :=
  ((l.filter (fun e => e.date = today)).map (fun e => e.tasks)).sum

/-- Total of the `pomodoros` counters of the entries dated `today`. -/
def pomodorosSum (today : Nat) (l : List DayEntry) : Int :=
  ((l.filter (fun e => e.date = today)).map (fun e => e.pomodoros)).sum

lemma tasksSum_bump (today : Nat) (l : List DayEntry)
    (hmem : ∃ e ∈ l, e.date = today) :
    tasksSum today (bumpTasksEntry today l) = tasksSum today l + 1 := by
  induction l with
  | nil => simp at hmem
  | cons e rest ih =>
    by_cases he : e.date = today
    · simp only [bumpTasksEntry, if_pos he, tasksSum, List.filter_cons]
      rw [if_pos (by simpa using he), if_pos (by simpa using he)]
      simp only [List.map_cons, List.sum_cons]
      ring
    · obtain ⟨x, hx, hxd⟩ := hmem
      rcases List.mem_cons.mp hx with rfl | hx
      · exact absurd hxd he
      · simp only [bumpTasksEntry, if_neg he, tasksSum, List.filter_cons]
        rw [if_neg (by simpa using he), if_neg (by simpa using he)]
        exact ih ⟨x, hx, hxd⟩

lemma tasksSum_drop_bump (today : Nat) (l : List DayEntry)
    (hnn : ∀ e ∈ l, 0 ≤ e.tasks) :
    tasksSum today (dropTasksEntry today (bumpTasksEntry today l)) = tasksSum today l := by
  induction l with
  | nil => rfl
  | cons e rest ih =>
    by_cases he : e.date = today
    · simp only [bumpTasksEntry, if_pos he]
      have hpos : (0 : Int) < e.tasks + 1 := by
        have := hnn e (List.mem_cons_self e rest)
        omega
      simp only [dropTasksEntry, if_pos he, if_pos hpos]
      simp only [tasksSum, List.filter_cons]
      rw [if_pos (by simpa using he), if_pos (by simpa using he)]
      simp only [List.map_cons, List.sum_cons]
      ring
    · simp only [bumpTasksEntry, if_neg he, dropTasksEntry]
      simp only [tasksSum, List.filter_cons]
      rw [if_neg (by simpa using he), if_neg (by simpa using he)]
      exact ih (fun x hx => hnn x (List.mem_cons_of_mem e hx))

lemma pomodorosSum_bump (today : Nat) (l : List DayEntry)
    (hmem : ∃ e ∈ l, e.date = today) :
    pomodorosSum today (bumpPomodorosEntry today l) = pomodorosSum today l + 1 := by
  induction l with
  | nil => simp at hmem
  | cons e rest ih =>
    by_cases he : e.date = today
    · simp only [bumpPomodorosEntry, if_pos he, pomodorosSum, List.filter_cons]
      rw [if_pos (by simpa using he), if_pos (by simpa using he)]
      simp only [List.map_cons, List.sum_cons]
      ring
    · obtain ⟨x, hx, hxd⟩ := hmem
      rcases List.mem_cons.mp hx with rfl | hx
      · exact absurd hxd he
      · simp only [bumpPomodorosEntry, if_neg he, pomodorosSum, List.filter_cons]
        rw [if_neg (by simpa using he), if_neg (by simpa using he)]
        exact ih ⟨x, hx, hxd⟩

lemma bumpTasksEntry_totalFocusTime_free (today : Nat) (st : Stats) :
    (incrementTasksCompletedStats today st).tasksCompletedToday = st.tasksCompletedToday + 1 ∧
    (incrementTasksCompletedStats today st).contributionData =
      bumpTasksEntry today st.contributionData := by
  constructor <;> rfl

/-! ## saveState projections and the history invariant -/

lemma saveState_tasks (s : AppState) : (saveState s).tasks = s.tasks := by
  simp only [saveState]
  split <;> split <;> rfl

lemma saveState_activeCount (s : AppState) : (saveState s)._activeCount = s._activeCount := by
  simp only [saveState]
  split <;> split <;> rfl

lemma saveState_completedCount (s : AppState) :
    (saveState s)._completedCount = s._completedCount := by
  simp only [saveState]
  split <;> split <;> rfl

lemma saveState_stats (s : AppState) : (saveState s).stats = s.stats := by
  simp only [saveState]
  split <;> split <;> rfl

lemma saveState_max (s : AppState) : (saveState s).maxHistorySize = s.maxHistorySize := by
  simp only [saveState]
  split <;> split <;> rfl

lemma saveState_focus (s : AppState) :
    (saveState s).currentTask = s.currentTask ∧ (saveState s).isBreakTime = s.isBreakTime ∧
    (saveState s).timerDuration = s.timerDuration ∧
    (saveState s).timeRemaining = s.timeRemaining ∧
    (saveState s).timerPaused = s.timerPaused ∧
    (saveState s).focusModeActive = s.focusModeActive ∧
    (saveState s).pomodoroCount = s.pomodoroCount ∧
    (saveState s).pomodorosToday = s.pomodorosToday := by
  simp only [saveState]
  split <;> split <;> exact ⟨rfl, rfl, rfl, rfl, rfl, rfl, rfl, rfl⟩

/-- Counter consistency: the cached counters agree with a full scan of
the live task list. -/
def CounterInv (s : AppState) : Prop :=
  s._activeCount + s._completedCount = (s.tasks.length : Int) ∧
  s._completedCount = (s.tasks.countP (fun t => t.completed) : Int)

/-- Well-formedness of the undo/redo history: cursor bounds, capacity
bound, the `-1` cursor only on an empty history, the constant capacity,
and id-uniqueness of every stored snapshot. -/
def HistoryInv (s : AppState) : Prop :=
  -1 ≤ s.historyIndex ∧ s.historyIndex < (s.history.length : Int) ∧
  s.history.length ≤ 50 ∧ (s.historyIndex = -1 → s.history = []) ∧
  s.maxHistorySize = 50 ∧ ∀ h ∈ s.history, (taskIds h).Nodup

/-- The inductive invariant carried through every operation. -/
def Inv (s : AppState) : Prop :=
  CounterInv s ∧ (taskIds s.tasks).Nodup ∧ HistoryInv s

lemma saveState_historyInv (s : AppState) (h : HistoryInv s)
    (hnd : (taskIds s.tasks).Nodup) : HistoryInv (saveState s) := by
  obtain ⟨h1, h2, h3, h4, h5, h6⟩ := h
  have htn : ((s.historyIndex + 1).toNat : Int) = s.historyIndex + 1 :=
    Int.toNat_of_nonneg (by omega)
  unfold HistoryInv
  simp only [saveState]
  split
  case isTrue hc =>
    split
    case isTrue hev =>
      exfalso
      simp only [List.length_append, List.length_take, List.length_cons,
        List.length_nil] at hev
      push_cast at hev
      omega
    case isFalse hev =>
      simp only [List.length_append, List.length_take, List.length_cons,
        List.length_nil] at hev ⊢
      refine ⟨by omega, ?_, ?_, by omega, h5, ?_⟩
      · push_cast
        omega
      · push_cast at hev ⊢
        omega
      · intro x hx
        rcases List.mem_append.mp hx with hx | hx
        · exact h6 x (List.mem_of_mem_take hx)
        · rw [List.mem_singleton.mp hx]
          exact hnd
  case isFalse hc =>
    split
    case isTrue hev =>
      simp only [List.length_append, List.length_cons, List.length_nil] at hev
      have hlen : s.history.length = 50 := by push_cast at hev; omega
      have hne : s.history ≠ [] := by
        intro he
        rw [he] at hlen
        simp at hlen
      refine ⟨h1, ?_, ?_, ?_, h5, ?_⟩
      · simp only [List.length_drop, List.length_append, List.length_cons, List.length_nil]
        push_cast
        omega
      · simp only [List.length_drop, List.length_append, List.length_cons, List.length_nil]
        omega
      · intro hidx
        exact absurd (h4 hidx) hne
      · intro x hx
        rcases List.mem_append.mp (List.mem_of_mem_drop hx) with hx | hx
        · exact h6 x hx
        · rw [List.mem_singleton.mp hx]
          exact hnd
    case isFalse hev =>
      simp only [List.length_append, List.length_cons, List.length_nil] at hev ⊢
      refine ⟨by omega, by push_cast; omega, by push_cast at hev; omega, by omega, h5, ?_⟩
      intro x hx
      rcases List.mem_append.mp hx with hx | hx
      · exact h6 x hx
      · rw [List.mem_singleton.mp hx]
        exact hnd

lemma not_mem_of_find?_eq_none (l : List Task) (id : String)
    (h : l.find? (fun t => t.id = id) = none) : id ∉ taskIds l := by
  rw [List.find?_eq_none] at h
  intro hm
  simp only [taskIds, List.mem_map] at hm
  obtain ⟨t, ht, hid⟩ := hm
  have := h t ht
  simp only [decide_eq_true_eq] at this
  exact this hid

lemma taskIds_filter_nodup (l : List Task) (p : Task → Bool)
    (h : (taskIds l).Nodup) : (taskIds (l.filter p)).Nodup := by
  simp only [taskIds] at h ⊢
  exact ((List.filter_sublist l).map (fun t => t.id)).nodup h

lemma saveState_inv (s : AppState) (h : Inv s) : Inv (saveState s) := by
  refine ⟨⟨?_, ?_⟩, ?_, saveState_historyInv s h.2.2 h.2.1⟩
  · rw [saveState_activeCount, saveState_completedCount, saveState_tasks]
    exact h.1.1
  · rw [saveState_completedCount, saveState_tasks]
    exact h.1.2
  · rw [saveState_tasks]
    exact h.2.1

lemma addTask_inv (s : AppState) (text id : String) (createdAt : Nat)
    (dueDate dueTime location : String) (h : Inv s) (hfresh : id ∉ taskIds s.tasks) :
    Inv (addTask s text id createdAt dueDate dueTime location) := by
  simp only [addTask]
  split
  · exact h
  · have h1 := saveState_inv s h
    have htasks : (saveState s).tasks = s.tasks := saveState_tasks s
    unfold Inv CounterInv HistoryInv at h1 ⊢
    dsimp only
    obtain ⟨⟨c1, c2⟩, cnd, chist⟩ := h1
    refine ⟨⟨?_, ?_⟩, ?_, chist⟩
    · simp only [List.length_cons]
      omega
    · simpa [List.countP_cons] using c2
    · simp only [taskIds, List.map_cons, List.nodup_cons]
      refine ⟨?_, by simpa [taskIds] using cnd⟩
      rw [htasks]
      simpa [taskIds] using hfresh

lemma deleteTask_inv (s : AppState) (id : String) (h : Inv s) : Inv (deleteTask s id) := by
  have h1 := saveState_inv s h
  simp only [deleteTask]
  set s1 := saveState s with hs1
  obtain ⟨⟨c1, c2⟩, cnd, chist⟩ := h1
  cases hf : s1.tasks.find? (fun t => t.id = id) with
  | none =>
    simp only [hf]
    have hfl : s1.tasks.filter (fun t => ¬ t.id = id) = s1.tasks :=
      filter_id_eq_self s1.tasks id (not_mem_of_find?_eq_none s1.tasks id hf)
    unfold Inv CounterInv HistoryInv
    dsimp only
    rw [hfl]
    exact ⟨⟨c1, c2⟩, cnd, chist⟩
  | some t =>
    simp only [hf]
    obtain ⟨hlen, hcnt⟩ := delete_len_countP s1.tasks id t cnd hf
    have hnd2 := taskIds_filter_nodup s1.tasks (fun t => ¬ t.id = id) cnd
    cases hc : t.completed
    · simp only [Bool.false_eq_true, if_false]
      rw [hc] at hcnt
      simp only [Bool.false_eq_true, if_false, Nat.add_zero] at hcnt
      unfold Inv CounterInv HistoryInv
      dsimp only
      refine ⟨⟨?_, ?_⟩, hnd2, chist⟩
      · omega
      · omega
    · have htt : (true = true) := rfl
      rw [if_pos htt]
      rw [hc] at hcnt
      simp only [eq_self_iff_true, if_true] at hcnt
      unfold Inv CounterInv HistoryInv
      dsimp only
      refine ⟨⟨?_, ?_⟩, hnd2, chist⟩
      · omega
      · omega

lemma inv_transfer (s s' : AppState) (h : Inv s)
    (ht : s'.tasks = s.tasks) (ha : s'._activeCount = s._activeCount)
    (hc : s'._completedCount = s._completedCount) (hh : s'.history = s.history)
    (hi : s'.historyIndex = s.historyIndex) (hm : s'.maxHistorySize = s.maxHistorySize) :
    Inv s' := by
  unfold Inv CounterInv HistoryInv at h ⊢
  rw [ht, ha, hc, hh, hi, hm]
  exact h

lemma toggleTask_inv (s : AppState) (id : String) (today : Nat) (h : Inv s) :
    Inv (toggleTask s id today) := by
  have h1 := saveState_inv s h
  simp only [toggleTask]
  set s1 := saveState s with hs1
  obtain ⟨⟨c1, c2⟩, cnd, chist⟩ := h1
  cases hf : s1.tasks.find? (fun t => t.id = id) with
  | none =>
    simp only [hf]
    exact ⟨⟨c1, c2⟩, cnd, chist⟩
  | some t =>
    simp only [hf]
    have hlen := toggleFirst_len s1.tasks id
    have hcnt := toggleFirst_countP s1.tasks id t hf
    have hids := toggleFirst_ids s1.tasks id
    have hnd2 : (taskIds (toggleFirst id s1.tasks)).Nodup := hids ▸ cnd
    cases hc : t.completed
    · rw [hc] at hcnt
      simp only [Bool.false_eq_true, if_false, eq_self_iff_true, if_true, Nat.add_zero] at hcnt
      simp only [Bool.not_false]
      rw [if_pos trivial]
      unfold incrementTasksCompleted Inv CounterInv HistoryInv
      dsimp only
      exact ⟨⟨by omega, by omega⟩, hnd2, chist⟩
    · rw [hc] at hcnt
      simp only [Bool.false_eq_true, if_false, eq_self_iff_true, if_true, Nat.add_zero] at hcnt
      simp only [Bool.not_true]
      simp only [Bool.false_eq_true, if_false]
      unfold decrementTasksCompleted Inv CounterInv HistoryInv
      dsimp only
      exact ⟨⟨by omega, by omega⟩, hnd2, chist⟩

lemma saveEdit_inv (s : AppState) (id newText newDueDate newDueTime newLocation : String)
    (h : Inv s) : Inv (saveEdit s id newText newDueDate newDueTime newLocation) := by
  simp only [saveEdit]
  split
  · exact deleteTask_inv s id h
  · have h1 := saveState_inv s h
    set s1 := saveState s with hs1
    obtain ⟨⟨c1, c2⟩, cnd, chist⟩ := h1
    have hlen := editFirst_len s1.tasks id (jsTrim newText) newDueDate newDueTime newLocation
    have hcnt := editFirst_countP s1.tasks id (jsTrim newText) newDueDate newDueTime newLocation
    have hids := editFirst_ids s1.tasks id (jsTrim newText) newDueDate newDueTime newLocation
    unfold Inv CounterInv HistoryInv
    dsimp only
    exact ⟨⟨by omega, by omega⟩, hids ▸ cnd, chist⟩

lemma countP_completed_map_const (l : List Task) (b : Bool) :
    (l.map (fun t => { t with completed := b })).countP (fun t => t.completed) =
      if b then l.length else 0 := by
  induction l with
  | nil => cases b <;> simp
  | cons x l ih => cases b <;> simp [List.countP_cons, ih]

lemma taskIds_map_const (l : List Task) (b : Bool) :
    taskIds (l.map (fun t => { t with completed := b })) = taskIds l := by
  induction l with
  | nil => rfl
  | cons x l ih =>
    simp [taskIds, List.map_cons] at ih ⊢

lemma toggleAllTasks_inv (s : AppState) (today : Nat) (h : Inv s) :
    Inv (toggleAllTasks s today) := by
  have h1 := saveState_inv s h
  simp only [toggleAllTasks]
  set s1 := saveState s with hs1
  obtain ⟨⟨c1, c2⟩, cnd, chist⟩ := h1
  split
  · unfold Inv CounterInv HistoryInv
    dsimp only
    refine ⟨⟨?_, ?_⟩, taskIds_map_const s1.tasks false ▸ cnd, chist⟩
    · simp [List.length_map]
    · rw [countP_completed_map_const]
      simp
  · unfold Inv CounterInv HistoryInv
    dsimp only
    refine ⟨⟨?_, ?_⟩, taskIds_map_const s1.tasks true ▸ cnd, chist⟩
    · simp [List.length_map]
    · rw [countP_completed_map_const]
      simp

lemma filter_active_length (l : List Task) :
    (l.filter (fun t => ! t.completed)).length + l.countP (fun t => t.completed) = l.length := by
  induction l with
  | nil => rfl
  | cons x l ih =>
    cases hx : x.completed <;> simp [List.filter_cons, hx, List.countP_cons] <;> omega

lemma filter_active_countP (l : List Task) :
    (l.filter (fun t => ! t.completed)).countP (fun t => t.completed) = 0 := by
  rw [List.countP_eq_zero]
  intro a ha
  have := (List.mem_filter.mp ha).2
  simp at this ⊢
  exact this

lemma clearCompletedTasks_inv (s : AppState) (h : Inv s) : Inv (clearCompletedTasks s) := by
  have h1 := saveState_inv s h
  simp only [clearCompletedTasks]
  set s1 := saveState s with hs1
  obtain ⟨⟨c1, c2⟩, cnd, chist⟩ := h1
  have hlen := filter_active_length s1.tasks
  have hcnt := filter_active_countP s1.tasks
  unfold Inv CounterInv HistoryInv
  dsimp only
  refine ⟨⟨by omega, by omega⟩, taskIds_filter_nodup s1.tasks _ cnd, chist⟩

lemma handleDrop_inv (s : AppState) (draggedId targetId : String) (h : Inv s)
    (hd : draggedId ∈ taskIds s.tasks) (ht : targetId ∈ taskIds s.tasks) :
    Inv (handleDrop s draggedId targetId) := by
  have h1 := saveState_inv s h
  simp only [handleDrop]
  set s1 := saveState s with hs1
  obtain ⟨⟨c1, c2⟩, cnd, chist⟩ := h1
  have hstay : s1.tasks = s.tasks := saveState_tasks s
  have hdi : s1.tasks.findIdx (fun t => t.id = draggedId) < s1.tasks.length := by
    apply List.findIdx_lt_length_of_exists
    rw [hstay]
    simp only [taskIds, List.mem_map] at hd
    obtain ⟨t, htm, hid⟩ := hd
    exact ⟨t, htm, by simpa using hid⟩
  have hti : s1.tasks.findIdx (fun t => t.id = targetId) < s1.tasks.length := by
    apply List.findIdx_lt_length_of_exists
    rw [hstay]
    simp only [taskIds, List.mem_map] at ht
    obtain ⟨t, htm, hid⟩ := ht
    exact ⟨t, htm, by simpa using hid⟩
  rw [List.getElem?_eq_getElem hdi]
  set di := s1.tasks.findIdx (fun t => t.id = draggedId) with hdi'
  set ti := s1.tasks.findIdx (fun t => t.id = targetId) with hti'
  have hperm1 : s1.tasks.Perm (s1.tasks[di] :: s1.tasks.eraseIdx di) :=
    perm_cons_eraseIdx s1.tasks di s1.tasks[di] (List.getElem?_eq_getElem hdi)
  have hlene : (s1.tasks.eraseIdx di).length = s1.tasks.length - 1 := by
    rw [List.length_eraseIdx, if_pos hdi]
  have hperm2 : ((s1.tasks.eraseIdx di).insertIdx ti s1.tasks[di]).Perm
      (s1.tasks[di] :: s1.tasks.eraseIdx di) :=
    List.perm_insertIdx _ _ (by omega)
  have hperm : ((s1.tasks.eraseIdx di).insertIdx ti s1.tasks[di]).Perm s1.tasks :=
    hperm2.trans hperm1.symm
  unfold Inv CounterInv HistoryInv
  dsimp only
  refine ⟨⟨?_, ?_⟩, ?_, chist⟩
  · rw [hperm.length_eq]
    omega
  · rw [hperm.countP_eq]
    omega
  · simp only [taskIds]
    exact ((hperm.map (fun t => t.id)).nodup_iff).mpr (by simpa [taskIds] using cnd)

lemma countP_not_completed_add (l : List Task) :
    l.countP (fun t => ! t.completed) + l.countP (fun t => t.completed) = l.length := by
  induction l with
  | nil => rfl
  | cons x l ih =>
    cases hx : x.completed <;> simp [List.countP_cons, hx] <;> omega

lemma recalculateCounters_counterInv (s : AppState) : CounterInv (recalculateCounters s) := by
  unfold CounterInv recalculateCounters
  rw [counterLoop_eq]
  dsimp only
  refine ⟨?_, rfl⟩
  have := countP_not_completed_add s.tasks
  omega

lemma undo_inv (s : AppState) (h : Inv s) : Inv (undo s) := by
  obtain ⟨hc, cnd, ⟨b1, b2, b3, b4, b5, b6⟩⟩ := h
  unfold undo
  split
  · exact ⟨hc, cnd, b1, b2, b3, b4, b5, b6⟩
  case isFalse hguard =>
    refine ⟨recalculateCounters_counterInv _, ?_, ?_⟩
    · unfold recalculateCounters
      dsimp only
      rw [List.getD_eq_getElem?_getD]
      cases hx : s.history[(s.historyIndex - 1).toNat]? with
      | none => simp [taskIds]
      | some entry =>
        simp only [Option.getD_some]
        exact b6 entry (List.getElem?_mem hx)
    · unfold recalculateCounters HistoryInv
      dsimp only
      exact ⟨by omega, by omega, b3, by omega, b5, b6⟩

lemma redo_inv (s : AppState) (h : Inv s) : Inv (redo s) := by
  obtain ⟨hc, cnd, ⟨b1, b2, b3, b4, b5, b6⟩⟩ := h
  unfold redo
  split
  · exact ⟨hc, cnd, b1, b2, b3, b4, b5, b6⟩
  case isFalse hguard =>
    refine ⟨recalculateCounters_counterInv _, ?_, ?_⟩
    · unfold recalculateCounters
      dsimp only
      rw [List.getD_eq_getElem?_getD]
      cases hx : s.history[(s.historyIndex + 1).toNat]? with
      | none => simp [taskIds]
      | some entry =>
        simp only [Option.getD_some]
        exact b6 entry (List.getElem?_mem hx)
    · unfold recalculateCounters HistoryInv
      dsimp only
      exact ⟨by omega, by omega, b3, by omega, b5, b6⟩

lemma updateContributionData_core (today : Nat) (s : AppState) :
    (updateContributionData today s).tasks = s.tasks ∧
    (updateContributionData today s)._activeCount = s._activeCount ∧
    (updateContributionData today s)._completedCount = s._completedCount ∧
    (updateContributionData today s).history = s.history ∧
    (updateContributionData today s).historyIndex = s.historyIndex ∧
    (updateContributionData today s).maxHistorySize = s.maxHistorySize := by
  unfold updateContributionData
  cases s.stats.contributionData.getLast? with
  | none => exact ⟨rfl, rfl, rfl, rfl, rfl, rfl⟩
  | some lastDay =>
    dsimp only
    split <;> exact ⟨rfl, rfl, rfl, rfl, rfl, rfl⟩

lemma checkDailyReset_inv (today : Nat) (s : AppState) (h : Inv s) :
    Inv (checkDailyReset today s) := by
  unfold checkDailyReset
  split
  · obtain ⟨e1, e2, e3, e4, e5, e6⟩ :=
      updateContributionData_core today
        { s with stats := { s.stats with tasksCompletedToday := 0, lastStatsDate := today } }
    exact inv_transfer s _ h e1 e2 e3 e4 e5 e6
  · exact h

lemma loadFromStorage_inv (s : AppState) (r : LoadResult) (today : Nat) (h : Inv s)
    (hnd : ∀ l, r = LoadResult.ok l → (taskIds l).Nodup) :
    Inv (loadFromStorage s r today) := by
  unfold loadFromStorage
  apply checkDailyReset_inv
  cases r with
  | absent => exact h
  | corrupt =>
    obtain ⟨hc, cnd, chist⟩ := h
    exact ⟨⟨by simp, by simp [taskIds]⟩, by simp [taskIds], chist⟩
  | ok l =>
    obtain ⟨hc, cnd, chist⟩ := h
    refine ⟨recalculateCounters_counterInv _, ?_, ?_⟩
    · unfold recalculateCounters
      dsimp only
      exact hnd l rfl
    · unfold HistoryInv at chist ⊢
      unfold recalculateCounters
      dsimp only
      exact chist

lemma initialState_inv (today : Nat) : Inv (initialState today) := by
  unfold Inv CounterInv HistoryInv initialState
  refine ⟨⟨by simp, by simp⟩, by simp [taskIds], by norm_num, by norm_num, by norm_num,
    by intro hx; rfl, rfl, by intro x hx; simp at hx⟩

/-- Every reachable state satisfies the inductive invariant. -/
lemma reachable_inv (s : AppState) (h : Reachable s) : Inv s := by
  induction h with
  | init today => exact initialState_inv today
  | add s text id createdAt dueDate dueTime location _ hfresh ih =>
    exact addTask_inv s text id createdAt dueDate dueTime location ih hfresh
  | delete s id _ ih => exact deleteTask_inv s id ih
  | toggle s id today _ ih => exact toggleTask_inv s id today ih
  | edit s id newText newDueDate newDueTime newLocation _ ih =>
    exact saveEdit_inv s id newText newDueDate newDueTime newLocation ih
  | toggleAll s today _ ih => exact toggleAllTasks_inv s today ih
  | clearCompleted s _ ih => exact clearCompletedTasks_inv s ih
  | drop s draggedId targetId _ hd ht ih => exact handleDrop_inv s draggedId targetId ih hd ht
  | undoStep s _ ih => exact undo_inv s ih
  | redoStep s _ ih => exact redo_inv s ih
  | load s r today _ hnd ih => exact loadFromStorage_inv s r today ih hnd

lemma saveState_truncate (s : AppState) (hmax : s.maxHistorySize = 50)
    (hlen : s.history.length ≤ 50) (hge : -1 ≤ s.historyIndex)
    (hlt : s.historyIndex < (s.history.length : Int) - 1) :
    (saveState s).history = s.history.take (s.historyIndex + 1).toNat ++ [s.tasks] ∧
    (saveState s).historyIndex = s.historyIndex + 1 ∧
    redo (saveState s) = saveState s := by
  have htn : ((s.historyIndex + 1).toNat : Int) = s.historyIndex + 1 :=
    Int.toNat_of_nonneg (by omega)
  have hmin : (s.history.take (s.historyIndex + 1).toNat).length = (s.historyIndex + 1).toNat := by
    rw [List.length_take]
    omega
  have hcond : ¬ (((s.history.take (s.historyIndex + 1).toNat ++ [s.tasks]).length : Int) >
      s.maxHistorySize) := by
    simp only [List.length_append, List.length_cons, List.length_nil, hmin]
    push_cast
    omega
  have heq : saveState s =
      { s with
        history := s.history.take (s.historyIndex + 1).toNat ++ [s.tasks]
        historyIndex := s.historyIndex + 1 } := by
    simp only [saveState]
    rw [if_pos hlt, if_neg hcond]
  refine ⟨by rw [heq], by rw [heq], ?_⟩
  rw [heq]
  unfold redo
  rw [if_pos ?_]
  dsimp only
  simp only [List.length_append, List.length_cons, List.length_nil, hmin]
  push_cast
  omega

lemma saveState_evict (s : AppState) (hmax : s.maxHistorySize = 50)
    (hlen : s.history.length = 50) (hidx : s.historyIndex = 49) :
    (saveState s).history = s.history.drop 1 ++ [s.tasks] ∧
    (saveState s).historyIndex = s.historyIndex ∧
    (saveState s).history.length = 50 := by
  have hcond1 : ¬ (s.historyIndex < (s.history.length : Int) - 1) := by
    rw [hidx, hlen]
    norm_num
  have hcond2 : (((s.history ++ [s.tasks]).length : Int) > s.maxHistorySize) := by
    simp only [List.length_append, List.length_cons, List.length_nil, hlen, hmax]
    norm_num
  have heq : saveState s = { s with history := (s.history ++ [s.tasks]).drop 1 } := by
    simp only [saveState]
    rw [if_neg hcond1, if_pos hcond2]
  have hdrop : (s.history ++ [s.tasks]).drop 1 = s.history.drop 1 ++ [s.tasks] :=
    List.drop_append_of_le_length (by omega)
  refine ⟨by rw [heq, hdrop], by rw [heq], ?_⟩
  rw [heq]
  show ((s.history ++ [s.tasks]).drop 1).length = 50
  simp only [List.length_drop, List.length_append, List.length_cons, List.length_nil, hlen]

lemma saveState_getLast (s : AppState) (hmax : s.maxHistorySize = 50) :
    (saveState s).history.getLast? = some s.tasks := by
  simp only [saveState]
  split
  · split
    case isTrue hev =>
      show ((_ ++ [s.tasks]).drop 1).getLast? = _
      rw [List.drop_append_of_le_length, List.getLast?_concat]
      simp only [List.length_append, List.length_cons, List.length_nil, hmax] at hev
      omega
    case isFalse hev =>
      show (_ ++ [s.tasks]).getLast? = _
      rw [List.getLast?_concat]
  · split
    case isTrue hev =>
      show ((_ ++ [s.tasks]).drop 1).getLast? = _
      rw [List.drop_append_of_le_length, List.getLast?_concat]
      simp only [List.length_append, List.length_cons, List.length_nil, hmax] at hev
      omega
    case isFalse hev =>
      show (_ ++ [s.tasks]).getLast? = _
      rw [List.getLast?_concat]

lemma saveState_advance_iff (s : AppState) (hmax : s.maxHistorySize = 50)
    (hlen : s.history.length ≤ 50) (hge : -1 ≤ s.historyIndex)
    (hidx : s.historyIndex < (s.history.length : Int)) :
    ((saveState s).historyIndex = s.historyIndex + 1 ↔
      ¬ (s.history.length = 50 ∧ s.historyIndex = 49)) := by
  by_cases hlt : s.historyIndex < (s.history.length : Int) - 1
  · obtain ⟨-, hadv, -⟩ := saveState_truncate s hmax hlen hge hlt
    rw [hadv]
    constructor
    · intro _ hand
      rw [hand.2] at hlt
      rw [hand.1] at hlt
      norm_num at hlt
    · intro _
      rfl
  · have hend : s.historyIndex = (s.history.length : Int) - 1 := by omega
    by_cases hfull : s.history.length = 50
    · have h49 : s.historyIndex = 49 := by rw [hend, hfull]; norm_num
      obtain ⟨-, hstay, -⟩ := saveState_evict s hmax hfull h49
      rw [hstay]
      constructor
      · intro habs
        omega
      · intro hneg
        exact absurd ⟨hfull, h49⟩ hneg
    · have hcond2 : ¬ (((s.history ++ [s.tasks]).length : Int) > s.maxHistorySize) := by
        simp only [List.length_append, List.length_cons, List.length_nil, hmax]
        push_cast
        omega
      have heq : saveState s =
          { s with
            history := s.history ++ [s.tasks]
            historyIndex := s.historyIndex + 1 } := by
        simp only [saveState]
        rw [if_neg hlt, if_neg hcond2]
      rw [heq]
      constructor
      · intro _ hand
        exact hfull hand.1
      · intro _
        rfl

/-! ## Claims -/

/-- C1: for every sequence of TaskStore operations (addTask, deleteTask,
toggleTask, saveEdit, toggleAllTasks, clearCompletedTasks, reorder via
drop, undo, redo, load), after each operation returns the cached
counters satisfy `_activeCount + _completedCount = |tasks|` and
`_completedCount` equals the number of tasks with `completed = true`. -/
theorem C1_counters_consistent (s : AppState) (h : Reachable s) :
    s._activeCount + s._completedCount = (s.tasks.length : Int) ∧
    s._completedCount = (s.tasks.countP (fun t => t.completed) : Int) :=
  (reachable_inv s h).1

/-- Witness for C1 at a concrete operation sequence: add a task, then
toggle it. -/
theorem C1_counters_consistent_witness :
    (toggleTask (addTask (initialState 100) "Buy milk" "1" 0 "" "" "") "1" 100)._activeCount +
        (toggleTask (addTask (initialState 100) "Buy milk" "1" 0 "" "" "") "1" 100)._completedCount =
      ((toggleTask (addTask (initialState 100) "Buy milk" "1" 0 "" "" "") "1" 100).tasks.length : Int) ∧
    (toggleTask (addTask (initialState 100) "Buy milk" "1" 0 "" "" "") "1" 100)._completedCount =
      ((toggleTask (addTask (initialState 100) "Buy milk" "1" 0 "" "" "") "1" 100).tasks.countP
        (fun t => t.completed) : Int) :=
  C1_counters_consistent _
    (Reachable.toggle _ "1" 100
      (Reachable.add _ "Buy milk" "1" 0 "" "" "" (Reachable.init 100) (by decide)))

/-- C4: in every reachable state the history satisfies
`-1 ≤ historyIndex < |history| ≤ 50` with `historyIndex = -1` only on an
empty history; a saveState performed while the cursor is not at the last
entry first discards all entries after the cursor and lands with redo
unavailable; a saveState that would exceed 50 entries evicts the oldest
entry without advancing the cursor. -/
theorem C4_history_invariant :
    (∀ s, Reachable s →
      -1 ≤ s.historyIndex ∧ s.historyIndex < (s.history.length : Int) ∧
      s.history.length ≤ 50 ∧ (s.historyIndex = -1 → s.history = [])) ∧
    (∀ s, s.maxHistorySize = 50 → s.history.length ≤ 50 → -1 ≤ s.historyIndex →
      s.historyIndex < (s.history.length : Int) - 1 →
      (saveState s).history = s.history.take (s.historyIndex + 1).toNat ++ [s.tasks] ∧
      (saveState s).historyIndex = s.historyIndex + 1 ∧
      redo (saveState s) = saveState s) ∧
    (∀ s, s.maxHistorySize = 50 → s.history.length = 50 → s.historyIndex = 49 →
      (saveState s).history = s.history.drop 1 ++ [s.tasks] ∧
      (saveState s).historyIndex = s.historyIndex ∧
      (saveState s).history.length = 50) := by
  refine ⟨?_, saveState_truncate, saveState_evict⟩
  intro s h
  obtain ⟨-, -, b1, b2, b3, b4, -, -⟩ := reachable_inv s h
  exact ⟨b1, b2, b3, b4⟩

/-- Witness for C4: the bounds at a concrete reachable state (two adds
followed by an undo), the truncation behaviour of the next saveState
there, and the eviction behaviour on a concrete full history. -/
theorem C4_history_invariant_witness :
    (-1 ≤ (undo (addTask (addTask (initialState 0) "A" "1" 0 "" "" "") "B" "2" 0 "" "" "")).historyIndex ∧
      (undo (addTask (addTask (initialState 0) "A" "1" 0 "" "" "") "B" "2" 0 "" "" "")).historyIndex <
        ((undo (addTask (addTask (initialState 0) "A" "1" 0 "" "" "") "B" "2" 0 "" "" "")).history.length : Int) ∧
      (undo (addTask (addTask (initialState 0) "A" "1" 0 "" "" "") "B" "2" 0 "" "" "")).history.length ≤ 50 ∧
      ((undo (addTask (addTask (initialState 0) "A" "1" 0 "" "" "") "B" "2" 0 "" "" "")).historyIndex = -1 →
        (undo (addTask (addTask (initialState 0) "A" "1" 0 "" "" "") "B" "2" 0 "" "" "")).history = [])) ∧
    ((saveState (undo (addTask (addTask (initialState 0) "A" "1" 0 "" "" "") "B" "2" 0 "" "" ""))).history =
        (undo (addTask (addTask (initialState 0) "A" "1" 0 "" "" "") "B" "2" 0 "" "" "")).history.take
          ((undo (addTask (addTask (initialState 0) "A" "1" 0 "" "" "") "B" "2" 0 "" "" "")).historyIndex + 1).toNat ++
          [(undo (addTask (addTask (initialState 0) "A" "1" 0 "" "" "") "B" "2" 0 "" "" "")).tasks] ∧
      (saveState (undo (addTask (addTask (initialState 0) "A" "1" 0 "" "" "") "B" "2" 0 "" "" ""))).historyIndex =
        (undo (addTask (addTask (initialState 0) "A" "1" 0 "" "" "") "B" "2" 0 "" "" "")).historyIndex + 1 ∧
      redo (saveState (undo (addTask (addTask (initialState 0) "A" "1" 0 "" "" "") "B" "2" 0 "" "" ""))) =
        saveState (undo (addTask (addTask (initialState 0) "A" "1" 0 "" "" "") "B" "2" 0 "" "" ""))) ∧
    ((saveState { initialState 0 with history := List.replicate 50 [], historyIndex := 49 }).history =
        ({ initialState 0 with history := List.replicate 50 [], historyIndex := 49 } : AppState).history.drop 1 ++
          [({ initialState 0 with history := List.replicate 50 [], historyIndex := 49 } : AppState).tasks] ∧
      (saveState { initialState 0 with history := List.replicate 50 [], historyIndex := 49 }).historyIndex =
        ({ initialState 0 with history := List.replicate 50 [], historyIndex := 49 } : AppState).historyIndex ∧
      (saveState { initialState 0 with history := List.replicate 50 [], historyIndex := 49 }).history.length = 50) :=
  ⟨C4_history_invariant.1 _
      (Reachable.undoStep _
        (Reachable.add _ "B" "2" 0 "" "" ""
          (Reachable.add _ "A" "1" 0 "" "" "" (Reachable.init 0) (by decide)) (by decide))),
    C4_history_invariant.2.1 _ (by decide) (by decide) (by decide) (by decide),
    C4_history_invariant.2.2 _ (by decide) (by decide) (by decide)⟩

/-- C2: the spec demands that after adding 3 tasks and deleting the 2nd,
a single `undo()` yields the pre-delete 3-task list.  Evaluating the
code on that exact scenario: the pre-delete list is `[C, B, A]`, but
`undo()` restores the snapshot taken before the 3rd add, `[B, A]` — the
cursor is decremented before reading, so undo skips the most recent
snapshot (which holds the pre-delete state) and loses task C. -/
theorem C2_undo_restores_wrong_state :
    (undo (deleteTask (addTask (addTask (addTask (initialState 100) "A" "1" 0 "" "" "")
        "B" "2" 0 "" "" "") "C" "3" 0 "" "" "") "2")).tasks.map (fun t => t.text) = ["B", "A"] ∧
    (addTask (addTask (addTask (initialState 100) "A" "1" 0 "" "" "") "B" "2" 0 "" "" "")
        "C" "3" 0 "" "" "").tasks.map (fun t => t.text) = ["C", "B", "A"] ∧
    (undo (deleteTask (addTask (addTask (addTask (initialState 100) "A" "1" 0 "" "" "")
        "B" "2" 0 "" "" "") "C" "3" 0 "" "" "") "2")).tasks ≠
      (addTask (addTask (addTask (initialState 100) "A" "1" 0 "" "" "") "B" "2" 0 "" "" "")
        "C" "3" 0 "" "" "").tasks := by
  refine ⟨by decide, by decide, by decide⟩

/-- C3: the spec demands that `undo()` immediately followed by `redo()`
restores the list current just before the undo.  Evaluating the code
after two adds (current list `[B, A]`, a state in which `undo()`
succeeds — the cursor moves from 1 to 0): `redo()` lands on the snapshot
`[A]`, not on `[B, A]`, because the current list was never pushed into
the history. -/
theorem C3_undo_redo_not_roundtrip :
    (undo (addTask (addTask (initialState 100) "A" "1" 0 "" "" "") "B" "2" 0 "" "" "")).historyIndex = 0 ∧
    (addTask (addTask (initialState 100) "A" "1" 0 "" "" "") "B" "2" 0 "" "" "").historyIndex = 1 ∧
    (redo (undo (addTask (addTask (initialState 100) "A" "1" 0 "" "" "") "B" "2" 0 "" "" ""))).tasks.map
        (fun t => t.text) = ["A"] ∧
    (addTask (addTask (initialState 100) "A" "1" 0 "" "" "") "B" "2" 0 "" "" "").tasks.map
        (fun t => t.text) = ["B", "A"] ∧
    (redo (undo (addTask (addTask (initialState 100) "A" "1" 0 "" "" "") "B" "2" 0 "" "" ""))).tasks ≠
      (addTask (addTask (initialState 100) "A" "1" 0 "" "" "") "B" "2" 0 "" "" "").tasks := by
  refine ⟨by decide, by decide, by decide, by decide, by decide⟩

set_option maxRecDepth 8000 in
/-- C10 counterexample: after 50 no-op deletes from the initial state the
history is full (50 entries, cursor at 49); one more `deleteTask` with
the still-absent id `x` appends a snapshot but the cursor does NOT
advance, refuting the claim that the cursor always advances. -/
theorem C10_cursor_counterexample :
    "x" ∉ taskIds ((fun s => deleteTask s "x")^[50] (initialState 0)).tasks ∧
    ((fun s => deleteTask s "x")^[50] (initialState 0)).history.length = 50 ∧
    ((fun s => deleteTask s "x")^[50] (initialState 0)).historyIndex = 49 ∧
    (deleteTask ((fun s => deleteTask s "x")^[50] (initialState 0)) "x").historyIndex = 49 ∧
    (deleteTask ((fun s => deleteTask s "x")^[50] (initialState 0)) "x").history.length = 50 := by
  refine ⟨by decide, by decide, by decide, by decide, by decide⟩

/-- C10 (amended): calling `deleteTask` or `toggleTask` with an absent id
behaves exactly like a bare `saveState`: the task list and both cached
counters are unchanged, the unchanged list is still appended as a
snapshot (it becomes the last history entry), and the history cursor
advances if and only if the history is not already at its 50-entry
capacity with the cursor at the tail (in that case the oldest entry is
evicted and the cursor stays in place). -/
theorem C10_absent_id_snapshot (s : AppState) (id : String) (today : Nat)
    (hmax : s.maxHistorySize = 50) (hlen : s.history.length ≤ 50)
    (hge : -1 ≤ s.historyIndex) (hidx : s.historyIndex < (s.history.length : Int))
    (habs : id ∉ taskIds s.tasks) :
    deleteTask s id = saveState s ∧
    toggleTask s id today = saveState s ∧
    (saveState s).tasks = s.tasks ∧
    (saveState s)._activeCount = s._activeCount ∧
    (saveState s)._completedCount = s._completedCount ∧
    (saveState s).history.getLast? = some s.tasks ∧
    ((saveState s).historyIndex = s.historyIndex + 1 ↔
      ¬ (s.history.length = 50 ∧ s.historyIndex = 49)) := by
  have habs1 : id ∉ taskIds (saveState s).tasks := by
    rw [saveState_tasks]
    exact habs
  have h1 : (saveState s).tasks.find? (fun t => t.id = id) = none :=
    find?_eq_none_of_not_mem _ _ habs1
  have h2 : (saveState s).tasks.filter (fun t => ¬ t.id = id) = (saveState s).tasks :=
    filter_id_eq_self _ _ habs1
  refine ⟨?_, ?_, saveState_tasks s, saveState_activeCount s, saveState_completedCount s,
    saveState_getLast s hmax, saveState_advance_iff s hmax hlen hge hidx⟩
  · simp only [deleteTask, h1, h2]
  · simp only [toggleTask, h1]

/-- Witness for C10 (amended) at a concrete input: one task present,
delete and toggle an absent id. -/
theorem C10_absent_id_snapshot_witness :
    deleteTask (addTask (initialState 0) "A" "1" 0 "" "" "") "zz" =
      saveState (addTask (initialState 0) "A" "1" 0 "" "" "") ∧
    toggleTask (addTask (initialState 0) "A" "1" 0 "" "" "") "zz" 0 =
      saveState (addTask (initialState 0) "A" "1" 0 "" "" "") ∧
    (saveState (addTask (initialState 0) "A" "1" 0 "" "" "")).tasks =
      (addTask (initialState 0) "A" "1" 0 "" "" "").tasks ∧
    (saveState (addTask (initialState 0) "A" "1" 0 "" "" ""))._activeCount =
      (addTask (initialState 0) "A" "1" 0 "" "" "")._activeCount ∧
    (saveState (addTask (initialState 0) "A" "1" 0 "" "" ""))._completedCount =
      (addTask (initialState 0) "A" "1" 0 "" "" "")._completedCount ∧
    (saveState (addTask (initialState 0) "A" "1" 0 "" "" "")).history.getLast? =
      some (addTask (initialState 0) "A" "1" 0 "" "" "").tasks ∧
    ((saveState (addTask (initialState 0) "A" "1" 0 "" "" "")).historyIndex =
        (addTask (initialState 0) "A" "1" 0 "" "" "").historyIndex + 1 ↔
      ¬ ((addTask (initialState 0) "A" "1" 0 "" "" "").history.length = 50 ∧
        (addTask (initialState 0) "A" "1" 0 "" "" "").historyIndex = 49)) :=
  C10_absent_id_snapshot _ "zz" 0 (by decide) (by decide) (by decide) (by decide) (by decide)

/-- C5 counterexample: on an 84-day window whose six most recent days
have `totalActivity` `[0, 1, 1, 1, 0, 1]` (oldest to newest), the streak
computation of `updateStreak()` returns 1 — the trailing run stops at
the zero on the second most recent day — not the 3 the spec's example
demands. -/
theorem C5_streak_counterexample :
    (updateStreakStats
      { tasksCompletedToday := 0, totalFocusTime := 0, streak := 0, lastStatsDate := 83,
        contributionData :=
          List.replicate 78 { date := 0, tasks := 0, pomodoros := 0, totalActivity := 0 } ++
            [{ date := 78, tasks := 0, pomodoros := 0, totalActivity := 0 },
             { date := 79, tasks := 1, pomodoros := 0, totalActivity := 1 },
             { date := 80, tasks := 1, pomodoros := 0, totalActivity := 1 },
             { date := 81, tasks := 1, pomodoros := 0, totalActivity := 1 },
             { date := 82, tasks := 0, pomodoros := 0, totalActivity := 0 },
             { date := 83, tasks := 1, pomodoros := 0, totalActivity := 1 }] }).streak = 1 ∧
    ¬ (updateStreakStats
      { tasksCompletedToday := 0, totalFocusTime := 0, streak := 0, lastStatsDate := 83,
        contributionData :=
          List.replicate 78 { date := 0, tasks := 0, pomodoros := 0, totalActivity := 0 } ++
            [{ date := 78, tasks := 0, pomodoros := 0, totalActivity := 0 },
             { date := 79, tasks := 1, pomodoros := 0, totalActivity := 1 },
             { date := 80, tasks := 1, pomodoros := 0, totalActivity := 1 },
             { date := 81, tasks := 1, pomodoros := 0, totalActivity := 1 },
             { date := 82, tasks := 0, pomodoros := 0, totalActivity := 0 },
             { date := 83, tasks := 1, pomodoros := 0, totalActivity := 1 }] }).streak = 3 := by
  refine ⟨by decide, by decide⟩

/-- C5 (amended): whenever the window's six most recent entries carry
`totalActivity` `[0, 1, 1, 1, 0, 1]` (oldest to newest), the streak
computation returns 1: it counts the trailing run of active days from
the newest entry backwards and stops at the first zero, so only the
newest day counts. -/
theorem C5_streak_one (st : Stats) (pre : List DayEntry) (e1 e2 e3 e4 e5 e6 : DayEntry)
    (hw : st.contributionData = pre ++ [e1, e2, e3, e4, e5, e6])
    (h1 : e1.totalActivity = 0) (h2 : e2.totalActivity = 1) (h3 : e3.totalActivity = 1)
    (h4 : e4.totalActivity = 1) (h5 : e5.totalActivity = 0) (h6 : e6.totalActivity = 1) :
    (updateStreakStats st).streak = 1 := by
  unfold updateStreakStats
  dsimp only
  rw [hw, List.reverse_append]
  have hrev : ([e1, e2, e3, e4, e5, e6] : List DayEntry).reverse = [e6, e5, e4, e3, e2, e1] := rfl
  rw [hrev]
  show streakScan (e6 :: e5 :: e4 :: e3 :: e2 :: e1 :: pre.reverse) = 1
  rw [streakScan, if_pos (by rw [h6]; norm_num)]
  rw [streakScan, if_neg (by rw [h5]; norm_num)]
  norm_num

/-- Witness for C5 (amended) at the concrete window of the
counterexample. -/
theorem C5_streak_one_witness :
    (updateStreakStats
      { tasksCompletedToday := 0, totalFocusTime := 0, streak := 0, lastStatsDate := 83,
        contributionData :=
          List.replicate 78 { date := 0, tasks := 0, pomodoros := 0, totalActivity := 0 } ++
            [{ date := 78, tasks := 0, pomodoros := 0, totalActivity := 0 },
             { date := 79, tasks := 1, pomodoros := 0, totalActivity := 1 },
             { date := 80, tasks := 1, pomodoros := 0, totalActivity := 1 },
             { date := 81, tasks := 1, pomodoros := 0, totalActivity := 1 },
             { date := 82, tasks := 0, pomodoros := 0, totalActivity := 0 },
             { date := 83, tasks := 1, pomodoros := 0, totalActivity := 1 }] }).streak = 1 :=
  C5_streak_one _ (List.replicate 78 { date := 0, tasks := 0, pomodoros := 0, totalActivity := 0 })
    _ _ _ _ _ _ rfl rfl rfl rfl rfl rfl rfl

/-- C6 counterexample: a state whose 84-entry window ends on day 83 and
whose rollover runs on day 85 (two elapsed days).  Afterwards the window
still has 84 entries and ends at day 85, but the skipped day 84 appears
nowhere in the window — the single shift-and-push leaves a gap instead
of a zero entry, refuting the claim that every skipped calendar day
appears as a zero-activity entry. -/
theorem C6_rollover_gap_counterexample :
    (checkDailyReset 85
        { initialState 0 with stats :=
          { tasksCompletedToday := 5, totalFocusTime := 0, streak := 0, lastStatsDate := 83,
            contributionData := (List.range 84).map
              (fun i => { date := i, tasks := 0, pomodoros := 0, totalActivity := 0 }) } }).stats.contributionData.length = 84 ∧
    (checkDailyReset 85
        { initialState 0 with stats :=
          { tasksCompletedToday := 5, totalFocusTime := 0, streak := 0, lastStatsDate := 83,
            contributionData := (List.range 84).map
              (fun i => { date := i, tasks := 0, pomodoros := 0, totalActivity := 0 }) } }).stats.contributionData.getLast? =
      some { date := 85, tasks := 0, pomodoros := 0, totalActivity := 0 } ∧
    (checkDailyReset 85
        { initialState 0 with stats :=
          { tasksCompletedToday := 5, totalFocusTime := 0, streak := 0, lastStatsDate := 83,
            contributionData := (List.range 84).map
              (fun i => { date := i, tasks := 0, pomodoros := 0, totalActivity := 0 }) } }).stats.contributionData.all
      (fun e => ! (e.date == 84)) = true := by
  refine ⟨by decide, by decide, by decide⟩

/-- C6 (amended): when the day-rollover update runs on a stale state
whose window holds 84 entries and ends on a day `d` other than today,
the window afterwards holds exactly 84 entries ending in a fresh zero
entry for today, obtained by evicting the oldest entry and appending
exactly one new entry — intermediate skipped days are not backfilled
(the window is the old window minus its head plus today's entry, so any
day strictly between `d` and today stays absent). -/
theorem C6_rollover_single_shift (s : AppState) (today d : Nat)
    (hlen : s.stats.contributionData.length = 84)
    (hstale : s.stats.lastStatsDate ≠ today)
    (hlast : (s.stats.contributionData.getLast?).map (fun e => e.date) = some d)
    (hd : d ≠ today) :
    (checkDailyReset today s).stats.contributionData =
      s.stats.contributionData.drop 1 ++
        [{ date := today, tasks := 0, pomodoros := 0, totalActivity := 0 }] ∧
    (checkDailyReset today s).stats.contributionData.length = 84 ∧
    (checkDailyReset today s).stats.contributionData.getLast? =
      some { date := today, tasks := 0, pomodoros := 0, totalActivity := 0 } ∧
    (checkDailyReset today s).stats.lastStatsDate = today ∧
    (checkDailyReset today s).stats.tasksCompletedToday = 0 := by
  obtain ⟨e, he, hed⟩ := Option.map_eq_some'.mp hlast
  have heq : checkDailyReset today s =
      { s with stats :=
        { s.stats with
          tasksCompletedToday := 0
          lastStatsDate := today
          contributionData := s.stats.contributionData.drop 1 ++
            [{ date := today, tasks := 0, pomodoros := 0, totalActivity := 0 }] } } := by
    unfold checkDailyReset
    rw [if_pos hstale]
    unfold updateContributionData
    dsimp only
    rw [he]
    dsimp only
    rw [if_pos (by rw [hed]; exact hd)]
  rw [heq]
  refine ⟨rfl, ?_, ?_, rfl, rfl⟩
  · dsimp only
    simp only [List.length_append, List.length_drop, List.length_cons, List.length_nil, hlen]
  · dsimp only
    rw [List.getLast?_concat]

/-- Witness for C6 (amended) at the counterexample's concrete state. -/
theorem C6_rollover_single_shift_witness :
    (checkDailyReset 85
        { initialState 0 with stats :=
          { tasksCompletedToday := 5, totalFocusTime := 0, streak := 0, lastStatsDate := 83,
            contributionData := (List.range 84).map
              (fun i => { date := i, tasks := 0, pomodoros := 0, totalActivity := 0 }) } }).stats.contributionData =
      ({ initialState 0 with stats :=
          { tasksCompletedToday := 5, totalFocusTime := 0, streak := 0, lastStatsDate := 83,
            contributionData := (List.range 84).map
              (fun i => { date := i, tasks := 0, pomodoros := 0, totalActivity := 0 }) } } : AppState).stats.contributionData.drop 1 ++
        [{ date := 85, tasks := 0, pomodoros := 0, totalActivity := 0 }] ∧
    (checkDailyReset 85
        { initialState 0 with stats :=
          { tasksCompletedToday := 5, totalFocusTime := 0, streak := 0, lastStatsDate := 83,
            contributionData := (List.range 84).map
              (fun i => { date := i, tasks := 0, pomodoros := 0, totalActivity := 0 }) } }).stats.contributionData.length = 84 ∧
    (checkDailyReset 85
        { initialState 0 with stats :=
          { tasksCompletedToday := 5, totalFocusTime := 0, streak := 0, lastStatsDate := 83,
            contributionData := (List.range 84).map
              (fun i => { date := i, tasks := 0, pomodoros := 0, totalActivity := 0 }) } }).stats.contributionData.getLast? =
      some { date := 85, tasks := 0, pomodoros := 0, totalActivity := 0 } ∧
    (checkDailyReset 85
        { initialState 0 with stats :=
          { tasksCompletedToday := 5, totalFocusTime := 0, streak := 0, lastStatsDate := 83,
            contributionData := (List.range 84).map
              (fun i => { date := i, tasks := 0, pomodoros := 0, totalActivity := 0 }) } }).stats.lastStatsDate = 85 ∧
    (checkDailyReset 85
        { initialState 0 with stats :=
          { tasksCompletedToday := 5, totalFocusTime := 0, streak := 0, lastStatsDate := 83,
            contributionData := (List.range 84).map
              (fun i => { date := i, tasks := 0, pomodoros := 0, totalActivity := 0 }) } }).stats.tasksCompletedToday = 0 :=
  C6_rollover_single_shift _ 85 83 (by decide) (by decide) (by decide) (by decide)

/-- The guard of `startFocusMode`: the prompt was cancelled, or the
entered string is empty, coerces to `NaN`, or coerces to a non-positive
number. -/
def durationRejected : Option String → Bool
  | none => true
  | some m => m = "" || (jsNumber m).isNone || jsLeZero m

/-- C8: starting a focus session with a rejected duration (non-positive
or non-numeric, e.g. `-5` or `abc`) leaves the whole state unchanged:
the session stays idle and none of `currentTask`, `timerDuration`,
`timeRemaining`, `timerPaused`, `focusModeActive` is touched, because
`startFocusMode` returns before any assignment. -/
theorem C8_invalid_duration_rejected (s : AppState) (taskId : String)
    (minutes : Option String) (h : durationRejected minutes = true) :
    startFocusMode s taskId minutes = s := by
  unfold startFocusMode
  cases hf : s.tasks.find? (fun t => t.id = taskId) with
  | none => rfl
  | some task =>
    cases minutes with
    | none => rfl
    | some m =>
      simp only [durationRejected] at h
      dsimp only
      rw [if_pos h]

/-- Witness for C8 on the spec's two examples, with a task present. -/
theorem C8_invalid_duration_rejected_witness :
    durationRejected (some "-5") = true ∧
    startFocusMode (addTask (initialState 0) "A" "1" 0 "" "" "") "1" (some "-5") =
      addTask (initialState 0) "A" "1" 0 "" "" "" ∧
    durationRejected (some "abc") = true ∧
    startFocusMode (addTask (initialState 0) "A" "1" 0 "" "" "") "1" (some "abc") =
      addTask (initialState 0) "A" "1" 0 "" "" "" :=
  ⟨by decide, C8_invalid_duration_rejected _ "1" (some "-5") (by decide),
    by decide, C8_invalid_duration_rejected _ "1" (some "abc") (by decide)⟩

lemma toggleTask_eq_found_false (s : AppState) (id : String) (today : Nat) (t : Task)
    (hfind : s.tasks.find? (fun x => x.id = id) = some t) (hnc : t.completed = false) :
    toggleTask s id today =
      incrementTasksCompleted today
        { saveState s with
          tasks := toggleFirst id (saveState s).tasks
          _activeCount := (saveState s)._activeCount - 1
          _completedCount := (saveState s)._completedCount + 1 } := by
  have hfind1 : (saveState s).tasks.find? (fun x => x.id = id) = some t := by
    rw [saveState_tasks]
    exact hfind
  simp only [toggleTask, hfind1, hnc, Bool.not_false]
  rw [if_pos trivial]

lemma toggleTask_eq_found_true (s : AppState) (id : String) (today : Nat) (t : Task)
    (hfind : s.tasks.find? (fun x => x.id = id) = some t) (hc : t.completed = true) :
    toggleTask s id today =
      decrementTasksCompleted today
        { saveState s with
          tasks := toggleFirst id (saveState s).tasks
          _activeCount := (saveState s)._activeCount + 1
          _completedCount := (saveState s)._completedCount - 1 } := by
  have hfind1 : (saveState s).tasks.find? (fun x => x.id = id) = some t := by
    rw [saveState_tasks]
    exact hfind
  simp only [toggleTask, hfind1, hc, Bool.not_true]
  rw [if_neg (by simp)]

/-- C7: toggling an uncompleted task (present in the list, with today's
entry present in the ledger and all counters in their reachable
non-negative range) moves one unit from the active to the completed
cached counter and increments today's ledger `tasks` total by exactly
one; toggling the same task again reverses all three exactly — no
double-counting in either direction. -/
theorem C7_toggle_counters_and_ledger (s : AppState) (id : String) (today : Nat) (t : Task)
    (hfind : s.tasks.find? (fun x => x.id = id) = some t)
    (hnc : t.completed = false)
    (hmem : ∃ e ∈ s.stats.contributionData, e.date = today)
    (hnn : ∀ e ∈ s.stats.contributionData, 0 ≤ e.tasks)
    (htc : 0 ≤ s.stats.tasksCompletedToday) :
    (toggleTask s id today)._activeCount = s._activeCount - 1 ∧
    (toggleTask s id today)._completedCount = s._completedCount + 1 ∧
    tasksSum today (toggleTask s id today).stats.contributionData =
      tasksSum today s.stats.contributionData + 1 ∧
    (toggleTask (toggleTask s id today) id today)._activeCount = s._activeCount ∧
    (toggleTask (toggleTask s id today) id today)._completedCount = s._completedCount ∧
    tasksSum today (toggleTask (toggleTask s id today) id today).stats.contributionData =
      tasksSum today s.stats.contributionData := by
  have e1 := toggleTask_eq_found_false s id today t hfind hnc
  have hstats : (saveState s).stats = s.stats := saveState_stats s
  have hact : (saveState s)._activeCount = s._activeCount := saveState_activeCount s
  have hcmp : (saveState s)._completedCount = s._completedCount := saveState_completedCount s
  have f1 : (toggleTask s id today)._activeCount = s._activeCount - 1 := by
    rw [e1]
    show (saveState s)._activeCount - 1 = s._activeCount - 1
    rw [hact]
  have f2 : (toggleTask s id today)._completedCount = s._completedCount + 1 := by
    rw [e1]
    show (saveState s)._completedCount + 1 = s._completedCount + 1
    rw [hcmp]
  have fwin : (toggleTask s id today).stats.contributionData =
      bumpTasksEntry today s.stats.contributionData := by
    rw [e1]
    show bumpTasksEntry today (saveState s).stats.contributionData = _
    rw [hstats]
  have ftct : (toggleTask s id today).stats.tasksCompletedToday =
      s.stats.tasksCompletedToday + 1 := by
    rw [e1]
    show (saveState s).stats.tasksCompletedToday + 1 = _
    rw [hstats]
  have ftasks : (toggleTask s id today).tasks = toggleFirst id (saveState s).tasks := by
    rw [e1]
    rfl
  have f3 : tasksSum today (toggleTask s id today).stats.contributionData =
      tasksSum today s.stats.contributionData + 1 := by
    rw [fwin]
    exact tasksSum_bump today s.stats.contributionData hmem
  set s2 := toggleTask s id today with hs2
  have hfind2 : s2.tasks.find? (fun x => x.id = id) =
      some { t with completed := ! t.completed } := by
    rw [ftasks]
    exact toggleFirst_find? (saveState s).tasks id t
      (by rw [saveState_tasks]; exact hfind)
  have hc2 : ({ t with completed := ! t.completed } : Task).completed = true := by
    simp [hnc]
  have e2 := toggleTask_eq_found_true s2 id today _ hfind2 hc2
  have hstats2 : (saveState s2).stats = s2.stats := saveState_stats s2
  have hact2 : (saveState s2)._activeCount = s2._activeCount := saveState_activeCount s2
  have hcmp2 : (saveState s2)._completedCount = s2._completedCount := saveState_completedCount s2
  have hguard : (0 : Int) < (saveState s2).stats.tasksCompletedToday := by
    rw [hstats2, ftct]
    omega
  have g1 : (toggleTask s2 id today)._activeCount = s._activeCount := by
    rw [e2]
    show (saveState s2)._activeCount + 1 = s._activeCount
    rw [hact2, f1]
    ring
  have g2 : (toggleTask s2 id today)._completedCount = s._completedCount := by
    rw [e2]
    show (saveState s2)._completedCount - 1 = s._completedCount
    rw [hcmp2, f2]
    ring
  have g3 : tasksSum today (toggleTask s2 id today).stats.contributionData =
      tasksSum today s.stats.contributionData := by
    rw [e2]
    show tasksSum today
      (decrementTasksCompletedStats today ((saveState s2).stats)).contributionData = _
    unfold decrementTasksCompletedStats
    rw [if_pos hguard]
    show tasksSum today (dropTasksEntry today ((saveState s2).stats).contributionData) = _
    rw [hstats2, fwin]
    exact tasksSum_drop_bump today s.stats.contributionData hnn
  exact ⟨f1, f2, f3, g1, g2, g3⟩

lemma startFocusMode_25 (s : AppState) (taskId : String) (t : Task)
    (hfind : s.tasks.find? (fun x => x.id = taskId) = some t) :
    startFocusMode s taskId (some "25") =
      { s with
        currentTask := some t
        timerDuration := 1500
        timeRemaining := 1500
        timerPaused := false
        focusModeActive := true } := by
  unfold startFocusMode
  rw [hfind]
  dsimp only
  rw [if_neg (by decide)]
  have h25 : jsParseInt "25" * 60 = 1500 := by decide
  rw [h25]

lemma tick_noncomplete (tb : Bool) (today : Nat) (X : AppState)
    (hp : X.timerPaused = false) (hr : 1 < X.timeRemaining) :
    tick tb today X = { X with timeRemaining := X.timeRemaining - 1 } := by
  unfold tick
  rw [if_neg (by rw [hp]; exact Bool.false_ne_true)]
  dsimp only
  rw [if_neg (by omega)]

lemma run_formula (tb : Bool) (today : Nat) (X : AppState) (hp : X.timerPaused = false) :
    ∀ k : Nat, (k : Int) < X.timeRemaining →
      (tick tb today)^[k] X = { X with timeRemaining := X.timeRemaining - k } := by
  intro k
  induction k with
  | zero =>
    intro _
    rw [Function.iterate_zero_apply]
    norm_num
  | succ n ih =>
    intro h
    rw [Function.iterate_succ_apply', ih (by push_cast at h ⊢; omega)]
    rw [tick_noncomplete tb today { X with timeRemaining := X.timeRemaining - (n : Int) } hp
      (by dsimp only; push_cast at h ⊢; omega)]
    dsimp only
    simp only [AppState.mk.injEq, and_true, true_and]
    push_cast
    ring_nf

lemma tick_completes_from_one (today : Nat) (X : AppState) (hp : X.timerPaused = false)
    (hr : X.timeRemaining = 1) :
    tick true today X = timerComplete true today { X with timeRemaining := 0 } := by
  unfold tick
  rw [if_neg (by rw [hp]; exact Bool.false_ne_true)]
  dsimp only
  rw [if_pos (by rw [hr]; norm_num)]
  rw [hr]
  norm_num

lemma timerComplete_work_break (today : Nat) (Y : AppState) (hb : Y.isBreakTime = false) :
    timerComplete true today Y =
      startBreak (if (Y.pomodoroCount + 1) % 4 = 0 then 15 else 5)
        (cleanupFocusMode
          (addFocusTime (roundMinutes Y.timerDuration)
            (incrementPomodoros today
              { Y with
                pomodoroCount := Y.pomodoroCount + 1
                pomodorosToday := Y.pomodorosToday + 1 }))) := by
  simp only [timerComplete]
  rw [if_pos (show (! Y.isBreakTime) = true by simp [hb])]
  rw [if_pos trivial]
  rfl

/-- C9: starting a work session with duration string `25` arms a
1500-second timer; none of the first 1499 ticks completes the session
(the pomodoro counter is untouched and the timer keeps running), and the
1500th tick auto-completes it, reporting exactly one work completion:
the pomodoro counter rises by one, today's ledger `pomodoros` total
rises by one, 25 focus minutes are accumulated, and the break the
completion offers (taken here) is 15 minutes when the new
completed-session count is a multiple of 4 and 5 minutes otherwise — in
particular 5 minutes (300 seconds) for the 1st session. -/
theorem C9_work_session_completion (s : AppState) (taskId : String) (t : Task) (today : Nat)
    (hfind : s.tasks.find? (fun x => x.id = taskId) = some t)
    (hwork : s.isBreakTime = false)
    (hmem : ∃ e ∈ s.stats.contributionData, e.date = today) :
    (startFocusMode s taskId (some "25")).timerDuration = 1500 ∧
    (startFocusMode s taskId (some "25")).timeRemaining = 1500 ∧
    (startFocusMode s taskId (some "25")).focusModeActive = true ∧
    (∀ k : Nat, k ≤ 1499 →
      ((tick true today)^[k] (startFocusMode s taskId (some "25"))).pomodoroCount =
          s.pomodoroCount ∧
      ((tick true today)^[k] (startFocusMode s taskId (some "25"))).focusModeActive = true ∧
      ((tick true today)^[k] (startFocusMode s taskId (some "25"))).timeRemaining =
          1500 - k) ∧
    ((tick true today)^[1500] (startFocusMode s taskId (some "25"))).pomodoroCount =
        s.pomodoroCount + 1 ∧
    pomodorosSum today
        ((tick true today)^[1500] (startFocusMode s taskId (some "25"))).stats.contributionData =
      pomodorosSum today s.stats.contributionData + 1 ∧
    ((tick true today)^[1500] (startFocusMode s taskId (some "25"))).stats.totalFocusTime =
        s.stats.totalFocusTime + 25 ∧
    ((tick true today)^[1500] (startFocusMode s taskId (some "25"))).isBreakTime = true ∧
    ((tick true today)^[1500] (startFocusMode s taskId (some "25"))).timerDuration =
        (if (s.pomodoroCount + 1) % 4 = 0 then 15 else 5) * 60 ∧
    (s.pomodoroCount = 0 →
      ((tick true today)^[1500] (startFocusMode s taskId (some "25"))).timerDuration = 300) := by
  have e0 := startFocusMode_25 s taskId t hfind
  rw [e0]
  set X : AppState :=
    { s with
      currentTask := some t
      timerDuration := 1500
      timeRemaining := 1500
      timerPaused := false
      focusModeActive := true } with hX
  have hp : X.timerPaused = false := rfl
  have htr : X.timeRemaining = 1500 := rfl
  have hrun : ∀ k : Nat, (k : Int) < 1500 →
      (tick true today)^[k] X = { X with timeRemaining := 1500 - k } := by
    intro k hk
    have := run_formula true today X hp k (by rw [htr]; exact hk)
    rw [htr] at this
    exact this
  have hfinal : (tick true today)^[1500] X =
      timerComplete true today { X with timeRemaining := 0 } := by
    have h1500 : (1500 : Nat) = 1499 + 1 := rfl
    rw [h1500, Function.iterate_succ_apply']
    rw [hrun 1499 (by norm_num)]
    rw [tick_completes_from_one today
      { X with timeRemaining := (1500 : Int) - ((1499 : Nat) : Int) } hp (by norm_num)]
  have hb : ({ X with timeRemaining := 0 } : AppState).isBreakTime = false := hwork
  have hcomp := timerComplete_work_break today { X with timeRemaining := 0 } hb
  refine ⟨rfl, rfl, rfl, ?_, ?_, ?_, ?_, ?_, ?_, ?_⟩
  · intro k hk
    rw [hrun k (by omega)]
    exact ⟨rfl, rfl, rfl⟩
  · rw [hfinal, hcomp]
    rfl
  · rw [hfinal, hcomp]
    show pomodorosSum today (bumpPomodorosEntry today s.stats.contributionData) = _
    exact pomodorosSum_bump today s.stats.contributionData hmem
  · rw [hfinal, hcomp]
    show s.stats.totalFocusTime + roundMinutes 1500 = s.stats.totalFocusTime + 25
    have h25 : roundMinutes 1500 = 25 := by decide
    rw [h25]
  · rw [hfinal, hcomp]
    rfl
  · rw [hfinal, hcomp]
    rfl
  · intro h0
    rw [hfinal, hcomp]
    show (if (s.pomodoroCount + 1) % 4 = 0 then (15 : Int) else 5) * 60 = 300
    rw [h0]
    norm_num

/-- Witness for C7 on the spec's scenario: add "Buy milk", toggle it
complete, toggle it back. -/
theorem C7_toggle_counters_and_ledger_witness :
    (toggleTask (addTask (initialState 100) "Buy milk" "1" 0 "" "" "") "1" 100)._activeCount =
        (addTask (initialState 100) "Buy milk" "1" 0 "" "" "")._activeCount - 1 ∧
    (toggleTask (addTask (initialState 100) "Buy milk" "1" 0 "" "" "") "1" 100)._completedCount =
        (addTask (initialState 100) "Buy milk" "1" 0 "" "" "")._completedCount + 1 ∧
    tasksSum 100 (toggleTask (addTask (initialState 100) "Buy milk" "1" 0 "" "" "") "1"
          100).stats.contributionData =
      tasksSum 100 (addTask (initialState 100) "Buy milk" "1" 0 "" "" "").stats.contributionData + 1 ∧
    (toggleTask (toggleTask (addTask (initialState 100) "Buy milk" "1" 0 "" "" "") "1" 100) "1"
          100)._activeCount =
      (addTask (initialState 100) "Buy milk" "1" 0 "" "" "")._activeCount ∧
    (toggleTask (toggleTask (addTask (initialState 100) "Buy milk" "1" 0 "" "" "") "1" 100) "1"
          100)._completedCount =
      (addTask (initialState 100) "Buy milk" "1" 0 "" "" "")._completedCount ∧
    tasksSum 100 (toggleTask (toggleTask (addTask (initialState 100) "Buy milk" "1" 0 "" "" "") "1"
          100) "1" 100).stats.contributionData =
      tasksSum 100 (addTask (initialState 100) "Buy milk" "1" 0 "" "" "").stats.contributionData :=
  C7_toggle_counters_and_ledger (addTask (initialState 100) "Buy milk" "1" 0 "" "" "") "1" 100
    { id := "1", text := "Buy milk", completed := false, createdAt := 0,
      dueDate := none, dueTime := none, location := none }
    (by decide) (by decide) (by decide) (by decide) (by decide)

/-- Witness for C9: the spec's scenario run from the concrete one-task
state (1st session, so the offered break is 5 minutes = 300 seconds). -/
theorem C9_work_session_completion_witness :
    (startFocusMode (addTask (initialState 100) "A" "1" 0 "" "" "") "1" (some "25")).timerDuration =
        1500 ∧
    ((tick true 100)^[1500] (startFocusMode (addTask (initialState 100) "A" "1" 0 "" "" "") "1"
          (some "25"))).pomodoroCount =
      (addTask (initialState 100) "A" "1" 0 "" "" "").pomodoroCount + 1 ∧
    pomodorosSum 100 ((tick true 100)^[1500] (startFocusMode
          (addTask (initialState 100) "A" "1" 0 "" "" "") "1" (some "25"))).stats.contributionData =
      pomodorosSum 100 (addTask (initialState 100) "A" "1" 0 "" "" "").stats.contributionData + 1 ∧
    ((tick true 100)^[1500] (startFocusMode (addTask (initialState 100) "A" "1" 0 "" "" "") "1"
          (some "25"))).timerDuration = 300 := by
  have H := C9_work_session_completion (addTask (initialState 100) "A" "1" 0 "" "" "") "1"
    { id := "1", text := "A", completed := false, createdAt := 0,
      dueDate := none, dueTime := none, location := none }
    100 (by decide) (by decide) (by decide)
  exact ⟨H.1, H.2.2.2.2.1, H.2.2.2.2.2.1, H.2.2.2.2.2.2.2.2.2 (by decide)⟩

end TodoApp
